import Mathlib

/-!
Shallow embedding of the media-acquisition pipeline in `src/main.py`
(video-link extraction mode and media-scraper mode of the Telegram bot).

External library calls (httpx fetches, the `re` module's pattern search,
BeautifulSoup's parse tree, Telegram's send methods) are modelled as
oracle parameters; all control flow, classification, deduplication,
batching, retry and cancellation logic is translated from the source.
URLs, page titles and bodies are `String`s; machine state
(`SENT_MEDIA_URLS`, the cancellation flag, the channel) is passed
explicitly.  The cooperative cancellation flag of a chat is modelled as a
function `Nat → Bool` of the index of the flag consultation: the n-th
time the code reads `cancellation_flags.get(chat_id)` it sees `flag n`,
which models an external `/cancel` arriving at any point of the run.
-/

namespace MediaBot

/-!
Kernel-computable string primitives over the character list of a
`String` (the core iterator-based versions do not reduce inside
`decide`); each models the corresponding Python `str` method.
-/

/-- Worker for `strSplitOn`: scan the input, emitting the accumulated
segment (kept reversed) whenever the separator is a prefix of the rest;
the fuel starts at the input length and bounds the scan. -/
def splitCharsGo (sep : List Char) : Nat → List Char → List Char → List (List Char)
  | _, cur, [] => [cur.reverse]
  | 0, cur, rest => [cur.reverse ++ rest]
  | fuel + 1, cur, c :: cs =>
    if sep.isPrefixOf (c :: cs) then
      cur.reverse :: splitCharsGo sep fuel [] ((c :: cs).drop sep.length)
    else splitCharsGo sep fuel (c :: cur) cs

/-- Python's `s.split(sep)` for a non-empty separator (the separators the
source uses are all non-empty literals). -/
def strSplitOn (s sep : String) : List String :=
  if sep.data.isEmpty then [s]
  else (splitCharsGo sep.data s.data.length [] s.data).map String.mk

/-- Python's `s.startswith(p)`. -/
def strStartsWith (s p : String) : Bool :=
  p.data.isPrefixOf s.data

/-- Python's `s.endswith(p)`. -/
def strEndsWith (s p : String) : Bool :=
  p.data.isSuffixOf s.data

/-- Python's `s.lower()` for the ASCII range the source relies on. -/
def strToLower (s : String) : String :=
  String.mk (s.data.map Char.toLower)

/-- Python's `s.strip()`. -/
def strTrim (s : String) : String :=
  String.mk
    (((s.data.dropWhile Char.isWhitespace).reverse.dropWhile Char.isWhitespace).reverse)

/-- The longest prefix of a string satisfying a character predicate. -/
def strTakeWhile (p : Char → Bool) (s : String) : String :=
  String.mk (s.data.takeWhile p)

/-- Drop the first n characters of a string. -/
def strDrop (s : String) (n : Nat) : String :=
  String.mk (s.data.drop n)

/-- Join strings with a separator (Python's `sep.join`). -/
def strIntercalate (sep : String) : List String → String
  | [] => ""
  | [x] => x
  | x :: y :: rest => x ++ sep ++ strIntercalate sep (y :: rest)

/-- Model of `urllib.parse.urljoin` restricted to http/https bases as used
throughout `main.py` (no dot-segment normalization, which the source never
relies on): an absolute reference wins, a network-path (`//h/x`) keeps the
base scheme, an absolute path keeps the base origin, and a relative
reference replaces the last path segment of the base. -/
def urljoin (base rel : String) : String :=
  if rel = "" then base
  else if strStartsWith rel "http://" || strStartsWith rel "https://" then rel
  else
    match strSplitOn base "://" with
    | [scheme, hostpath] =>
      let host := strTakeWhile (fun c => c != '/') hostpath
      let path := strTakeWhile (fun c => c != '?') (strDrop hostpath host.data.length)
      if strStartsWith rel "//" then scheme ++ ":" ++ rel
      else if strStartsWith rel "/" then scheme ++ "://" ++ host ++ rel
      else
        let dir := strIntercalate "/" (strSplitOn path "/").dropLast ++ "/"
        scheme ++ "://" ++ host ++ dir ++ rel
    | _ => rel

/-- Model of Python's `str.replace("\\/", "/")` used on embed matches. -/
def unescapeSlashes (s : String) : String :=
  strIntercalate "/" (strSplitOn s "\x5c/")

/-- The Python substring test `p in s`. -/
def strContains (s p : String) : Bool :=
  (strSplitOn s p).length ≠ 1

/-- `IGNORED_MEDIA_PATTERNS` from `main.py`. -/
def IGNORED_MEDIA_PATTERNS : List String :=
  ["/avatars/", "/styles/", "/smilies/", "/assets/",
   "cdninstagram.com", "/addonflare/", "/icons/"]

/-- URL normalization at the top of both processing loops:
`if not url.startswith('http'): url = 'https://' + url`. -/
def normalizeUrl (u : String) : String :=
  if strStartsWith u "http" then u else "https://" ++ u

/-- The shared accumulation idiom `if x not in acc: acc.append(x)`. -/
def insertIfNew (acc : List String) (x : String) : List String :=
  if x ∈ acc then acc else acc ++ [x]

/-- First-occurrence deduplication: the cumulative effect of repeatedly
appending with a membership check, starting from an empty list. -/
def dedupKeepFirst (l : List String) : List String :=
  l.foldl insertIfNew []

/-- The lowercased path component of a URL:
`urlparse(full_url).path.lower()` (query and fragment stripped). -/
def urlPathLower (u : String) : String :=
  match strSplitOn u "://" with
  | [_, hostpath] =>
    let host := strTakeWhile (fun c => c != '/') hostpath
    strToLower (strTakeWhile (fun c => c != '#')
      (strTakeWhile (fun c => c != '?') (strDrop hostpath host.data.length)))
  | _ => strToLower (strTakeWhile (fun c => c != '?') u)

/-- `url.lower().endswith(".webp")` test in `send_images`. -/
def isWebpUrl (u : String) : Bool :=
  strEndsWith (strToLower u) ".webp"

-- ========================
-- Pattern Extractor (media-scraper mode), `extract_media_from_page`
-- ========================

/-- The per-kind media URL lists accumulated by `extract_media_from_page`
(the `media_urls` dict). -/
structure PageMedia where
  images : List String
  videos : List String
  gifs : List String
  deriving Repr, DecidableEq

/-- A parsed `<a>`/`<img>`/`<video>`/`<source>` tag: the three attributes
`extract_media_from_page` reads, `none` when absent. -/
structure MTag where
  href : Option String
  src : Option String
  dataSrc : Option String
  deriving Repr, DecidableEq

/-- A parsed anchor as seen by the next-page search: its class list, its
`rel` token list, its `.string` content and its `href`. -/
structure Anchor where
  classes : List String
  rel : List String
  text : Option String
  href : Option String
  deriving Repr, DecidableEq

/-- A fetched page as BeautifulSoup exposes it to
`extract_media_from_page`: the `a`/`img`/`video`/`source` tags in document
order, the iframe `src` attributes in document order, and the anchors in
document order. -/
structure Page where
  mediaTags : List MTag
  iframes : List (Option String)
  anchors : List Anchor
  deriving Repr, DecidableEq

/-- The attribute values one tag contributes, in the source's attribute
order `['href', 'src', 'data-src']`; `if not link: continue` skips both
missing and empty values. -/
def tagLinks (t : MTag) : List String :=
  ([t.href, t.src, t.dataSrc].filterMap id).filter (fun s => s ≠ "")

/-- One step of the direct-media scan: resolve the link against the page
URL, drop it if it contains an ignored substring, then classify by the
lowercased final path extension into images / gifs / videos, appending
only if not already present in that kind's list. -/
def classifyLink (pageUrl : String) (m : PageMedia) (link : String) : PageMedia :=
  let full := urljoin pageUrl link
  if IGNORED_MEDIA_PATTERNS.any (fun p => strContains full p) then m
  else
    let path := urlPathLower full
    if [".jpg", ".jpeg", ".png", ".webp"].any (fun e => strEndsWith path e) then
      { m with images := insertIfNew m.images full }
    else if strEndsWith path ".gif" then
      { m with gifs := insertIfNew m.gifs full }
    else if [".mp4", ".webm", ".mov"].any (fun e => strEndsWith path e) then
      { m with videos := insertIfNew m.videos full }
    else m

/-- The iframe pass: each iframe with a non-empty `src` is resolved via the
embed resolver; a successful resolution is appended to the video list if
not already present. -/
def addEmbeds (resolve : String → Option String) (pageUrl : String)
    (m : PageMedia) (iframes : List (Option String)) : PageMedia :=
  iframes.foldl (fun m src? =>
    match src? with
    | none => m
    | some s =>
      if s = "" then m
      else
        match resolve (urljoin pageUrl s) with
        | none => m
        | some v => { m with videos := insertIfNew m.videos v }) m

/-- Does the anchor carry the `pageNav-jump--next` class? -/
def hasNextClass (a : Anchor) : Bool :=
  a.classes.contains "pageNav-jump--next"

/-- Does the anchor's `rel` contain `next`? -/
def hasNextRel (a : Anchor) : Bool :=
  a.rel.contains "next"

/-- Does the anchor's string match `^\s*Next\s*$` case-insensitively? -/
def hasNextText (a : Anchor) : Bool :=
  match a.text with
  | none => false
  | some s => strToLower (strTrim s) = "next"

/-- The three-stage next-page anchor search: a `pageNav-jump--next` class
anchor, else a `rel="next"` anchor, else an anchor whose text is exactly
`Next` up to case and surrounding whitespace. -/
def findNextAnchor (anchors : List Anchor) : Option Anchor :=
  match anchors.find? hasNextClass with
  | some a => some a
  | none =>
    match anchors.find? hasNextRel with
    | some a => some a
    | none => anchors.find? hasNextText

/-- `if next_tag and next_tag.get("href"): next_page_url = urljoin(url, ...)`. -/
def nextPageOf (url : String) (anchors : List Anchor) : Option String :=
  match findNextAnchor anchors with
  | none => none
  | some a =>
    match a.href with
    | none => none
    | some h => if h = "" then none else some (urljoin url h)

/-- `extract_media_from_page`: fetch the page (any error yields the empty
result), scan the media tags attribute by attribute, resolve iframes
through the embed resolver, locate the next-page link, and cap the kinds
at 50 / 20 / 10.  The Python function returns the triple
`(media_urls-with-caps, None, next_page_url)`. -/
def extract_media_from_page (fetch : String → Option Page)
    (resolve : String → Option String) (url : String) :
    PageMedia × Option String × Option String :=
  match fetch url with
  | none => (⟨[], [], []⟩, none, none)
  | some pg =>
    let m0 := pg.mediaTags.foldl
      (fun m t => (tagLinks t).foldl (classifyLink url) m) ⟨[], [], []⟩
    let m1 := addEmbeds resolve url m0 pg.iframes
    (⟨m1.images.take 50, m1.videos.take 20, m1.gifs.take 10⟩,
     none, nextPageOf url pg.anchors)

-- ========================
-- Embed Resolver, `scrape_embedded_video`
-- ========================

/-- `re.search` over one compiled pattern, as an oracle: `some g` is the
first match's captured group, `none` means no match. -/
def firstMatch : List (String → Option String) → String → Option String
  | [], _ => none
  | p :: ps, body =>
    match p body with
    | some g => some g
    | none => firstMatch ps body

/-- `scrape_embedded_video`: fetch the embed page (the `except` clause
turns any fetch or status error into `None`); on success try the patterns
in order, and for the first match strip it, unescape `\/` separators, and
resolve it against the embed-page URL.  `fetch` takes the embed URL and
the referer header value. -/
def scrape_embedded_video (fetch : String → String → Option String)
    (matchers : List (String → Option String))
    (embedUrl referer : String) : Option String :=
  match fetch embedUrl referer with
  | none => none
  | some body =>
    match firstMatch matchers body with
    | none => none
    | some g => some (urljoin embedUrl (unescapeSlashes (strTrim g)))

-- ========================
-- Delivery Engine retry wrapper, `_send_with_retry`
-- ========================

/-- Outcome of one attempted channel send: success, a `RetryAfter`
flood-control signal carrying the cooldown, or another `TelegramError`. -/
inductive ChanOutcome
  | success
  | rateLimited (secs : Nat)
  | chanError
  deriving Repr, DecidableEq

/-- Observable events of one `_send_with_retry` call: rewinding the
`BytesIO` cursors, issuing the send attempt, and sleeping. -/
inductive REv
  | rewind
  | attempt
  | sleep (secs : Nat)
  deriving Repr, DecidableEq

/-- The body of `for attempt in range(3)` in `_send_with_retry`, with the
attempt index threaded and the remaining iteration count as structural
fuel.  `script a` is the channel's response to the a-th attempt.  Returns
whether the payload was sent, plus the event trace. -/
def sendRetryAux (script : Nat → ChanOutcome) :
    Nat → Nat → Bool × List REv
  | _, 0 => (false, [])
  | attempt, r + 1 =>
    let pre := [REv.rewind, REv.attempt]
    match script attempt with
    | ChanOutcome.success => (true, pre ++ [REv.sleep 2])
    | ChanOutcome.rateLimited s =>
      let (b, t) := sendRetryAux script (attempt + 1) r
      (b, pre ++ [REv.sleep s] ++ t)
    | ChanOutcome.chanError =>
      if attempt = 2 then (false, pre)
      else
        let (b, t) := sendRetryAux script (attempt + 1) r
        (b, pre ++ [REv.sleep 5] ++ t)

/-- `_send_with_retry`: up to three loop iterations.  Before every attempt
all `BytesIO` payload cursors are rewound; on success sleep 2 seconds and
return; on `RetryAfter` sleep the signalled cooldown and loop; on another
`TelegramError` return if this was the third iteration, else sleep 5
seconds and loop. -/
def sendWithRetry (script : Nat → ChanOutcome) : Bool × List REv :=
  sendRetryAux script 0 3

-- ========================
-- Delivery Engine and Session Job Controller (media-scraper mode)
-- ========================

/-- Observable events of a media-scraper run: a page fetch, a media
download attempt (with its success bit), an add to `SENT_MEDIA_URLS`, a
grouped-photo send and a single-video send (each with the retry wrapper's
delivery bit). -/
inductive Ev
  | fetchPage (url : String)
  | download (url : String) (ok : Bool)
  | mark (url : String)
  | sendPhotos (urls : List String) (delivered : Bool)
  | sendVideo (url : String) (delivered : Bool)
  deriving Repr, DecidableEq

/-- The mutable state a media-scraper job threads: the global
`SENT_MEDIA_URLS` ledger (insertion-ordered, membership-checked), the
number of cancellation-flag consultations made so far, and the number of
`_send_with_retry` calls made so far. -/
structure St where
  sent : List String
  chk : Nat
  calls : Nat
  deriving Repr, DecidableEq

/-- The environment of a media-scraper job: the page-fetch oracle, the
embed-resolver oracle, the binary-download oracle (`True` = the download
returned bytes), the WebP-conversion oracle (`True` = `img.save`
succeeded), the channel script (send-call index → attempt index →
outcome), and the cancellation flag as a function of the consultation
index. -/
structure Env where
  fetchPage : String → Option Page
  resolveEmbed : String → Option String
  dl : String → Bool
  conv : String → Bool
  chan : Nat → Nat → ChanOutcome
  flag : Nat → Bool

/-- The loop of `send_images`: check the cancellation flag (raising
`CancelledError` when set, modelled by the `Bool` component), download,
add to `SENT_MEDIA_URLS` on download success, convert WebP payloads
(a failed conversion skips the item after marking), accumulate a media
group, flush it through the retry wrapper at exactly 10 items, and flush
the remainder at the end. -/
def sendImagesAux (env : Env) (group : List String) :
    List String → St → St × List Ev × Bool
  | [], st =>
    if group.isEmpty then (st, [], false)
    else
      let ok := (sendWithRetry (env.chan st.calls)).1
      ({ st with calls := st.calls + 1 }, [Ev.sendPhotos group ok], false)
  | u :: rest, st =>
    if env.flag st.chk then ({ st with chk := st.chk + 1 }, [], true)
    else
      let st1 : St := { st with chk := st.chk + 1 }
      if env.dl u then
        let st2 : St := { st1 with sent := insertIfNew st1.sent u }
        let pre := [Ev.download u true, Ev.mark u]
        if isWebpUrl u && !env.conv u then
          let (st', evs, c) := sendImagesAux env group rest st2
          (st', pre ++ evs, c)
        else
          let group2 := group ++ [u]
          if group2.length = 10 then
            let ok := (sendWithRetry (env.chan st2.calls)).1
            let st3 : St := { st2 with calls := st2.calls + 1 }
            let (st', evs, c) := sendImagesAux env [] rest st3
            (st', pre ++ [Ev.sendPhotos group2 ok] ++ evs, c)
          else
            let (st', evs, c) := sendImagesAux env group2 rest st2
            (st', pre ++ evs, c)
      else
        let (st', evs, c) := sendImagesAux env group rest st1
        (st', [Ev.download u false] ++ evs, c)

/-- `send_images` proper (the media group starts empty). -/
def send_images (env : Env) (urls : List String) (st : St) :
    St × List Ev × Bool :=
  sendImagesAux env [] urls st

/-- `send_videos`: check the cancellation flag before each URL, download,
add to `SENT_MEDIA_URLS` on download success, and send each video through
the retry wrapper individually. -/
def send_videos (env : Env) : List String → St → St × List Ev × Bool
  | [], st => (st, [], false)
  | u :: rest, st =>
    if env.flag st.chk then ({ st with chk := st.chk + 1 }, [], true)
    else
      let st1 : St := { st with chk := st.chk + 1 }
      if env.dl u then
        let st2 : St := { st1 with sent := insertIfNew st1.sent u }
        let ok := (sendWithRetry (env.chan st2.calls)).1
        let st3 : St := { st2 with calls := st2.calls + 1 }
        let (st', evs, c) := send_videos env rest st3
        (st', [Ev.download u true, Ev.mark u, Ev.sendVideo u ok] ++ evs, c)
      else
        let (st', evs, c) := send_videos env rest st1
        (st', [Ev.download u false] ++ evs, c)

/-- The per-page delivery phase of `process_media_scraper`: the dict
comprehension filters every kind (gifs included) through
`SENT_MEDIA_URLS` once, before any send; then `send_images` runs when the
filtered image list is non-empty, then `send_videos` when the filtered
video list is non-empty.  The filtered gif list is computed and never
used.  A `CancelledError` from either send aborts the page. -/
def deliverMedia (env : Env) (m : PageMedia) (st : St) :
    St × List Ev × Bool :=
  let newImages := m.images.filter (fun u => !st.sent.contains u)
  let newVideos := m.videos.filter (fun u => !st.sent.contains u)
  let afterImages :=
    if newImages.isEmpty then (st, ([] : List Ev), false)
    else send_images env newImages st
  match afterImages with
  | (st1, evs1, true) => (st1, evs1, true)
  | (st1, evs1, false) =>
    if newVideos.isEmpty then (st1, evs1, false)
    else
      let (st2, evs2, c) := send_videos env newVideos st1
      (st2, evs1 ++ evs2, c)

/-- One iteration of the seed loop body after the cancellation check:
fetch and extract the page (`media, _, _ = ...` discards the next-page
URL), then deliver the filtered media. -/
def processPage (env : Env) (url : String) (st : St) :
    St × List Ev × Bool :=
  let ex := extract_media_from_page env.fetchPage env.resolveEmbed url
  let (st', evs, c) := deliverMedia env ex.1 st
  (st', Ev.fetchPage url :: evs, c)

/-- Terminal outcome a media-scraper job reports: the final status message
edit (`✅ Scraping complete!` versus `🚫 Canceled.`). -/
inductive Outcome
  | completed
  | cancelled
  deriving Repr, DecidableEq

/-- The seed loop of `process_media_scraper`: before each seed URL the
cancellation flag is consulted and, when set, the loop `break`s — which
falls through to the completion message; a `CancelledError` raised inside
a delivery call is caught and reported as the cancelled outcome.  Each
seed is normalized to carry a scheme before processing. -/
def processSeeds (env : Env) : List String → St → Outcome × St × List Ev
  | [], st => (Outcome.completed, st, [])
  | u :: rest, st =>
    if env.flag st.chk then
      (Outcome.completed, { st with chk := st.chk + 1 }, [])
    else
      let st1 : St := { st with chk := st.chk + 1 }
      match processPage env (normalizeUrl u) st1 with
      | (st2, evs, true) => (Outcome.cancelled, st2, evs)
      | (st2, evs, false) =>
        let (o, st3, evs2) := processSeeds env rest st2
        (o, st3, evs ++ evs2)

/-- `process_media_scraper` started on a fresh process: `SENT_MEDIA_URLS`
empty, no flag consultations, no channel calls. -/
def process_media_scraper (env : Env) (seeds : List String) :
    Outcome × St × List Ev :=
  processSeeds env seeds ⟨[], 0, 0⟩

-- ========================
-- Video-links mode, `process_video_links`
-- ========================

/-- The accumulation loop of `process_video_links`: before each seed URL
the cancellation flag is consulted and, when set, the loop `break`s;
otherwise the page's extracted `(title, url)` pairs (the oracle stands
for `extract_video_links`, which returns `[]` on any fetch error) are
appended to `all_links`. -/
def collectVideoLinks (pageLinks : String → List (String × String))
    (flag : Nat → Bool) :
    List String → Nat → List (String × String) → List (String × String)
  | [], _, acc => acc
  | u :: rest, i, acc =>
    if flag i then acc
    else collectVideoLinks pageLinks flag rest (i + 1)
      (acc ++ pageLinks (normalizeUrl u))

/-- One insertion into a Python `dict` built from `(title, url)` pairs:
an existing key keeps its position and takes the new value, a new key is
appended. -/
def dictInsert (acc : List (String × String)) (kv : String × String) :
    List (String × String) :=
  if acc.any (fun p => p.1 = kv.1) then
    acc.map (fun p => if p.1 = kv.1 then (p.1, kv.2) else p)
  else acc ++ [kv]

/-- `list(dict(all_links).items())`: fold the pairs into a dict keyed by
the FIRST component (the page title) and read the items back in key
insertion order. -/
def pyDictItems (l : List (String × String)) : List (String × String) :=
  l.foldl dictInsert []

/-- `process_video_links` up to the artifact: collect links across the
seed URLs, and when any were found apply `list(dict(all_links).items())`
as the run-wide deduplication (`none` models the `No video links found`
branch, which writes no artifact). -/
def process_video_links (pageLinks : String → List (String × String))
    (flag : Nat → Bool) (seeds : List String) :
    Option (List (String × String)) :=
  let all := collectVideoLinks pageLinks flag seeds 0 []
  if all.isEmpty then none else some (pyDictItems all)

/-- The line-oriented artifact written by `save_links_to_file`:
`f"{title} - {link}\n"` per kept pair. -/
def artifactLines (links : List (String × String)) : List String :=
  links.map (fun p => p.1 ++ " - " ++ p.2)

-- ========================
-- Trace observations
-- ========================

/-- The grouped-photo batches issued during a run, in order. -/
def photoGroups (evs : List Ev) : List (List String) :=
  evs.filterMap (fun e =>
    match e with
    | Ev.sendPhotos g _ => some g
    | _ => none)

/-- The URLs added to `SENT_MEDIA_URLS` during a run, in order. -/
def markedUrls (evs : List Ev) : List String :=
  evs.filterMap (fun e =>
    match e with
    | Ev.mark u => some u
    | _ => none)

/-- The download attempts of a run: URL and success bit, in order. -/
def downloadEvents (evs : List Ev) : List (String × Bool) :=
  evs.filterMap (fun e =>
    match e with
    | Ev.download u b => some (u, b)
    | _ => none)

/-- The page URLs fetched during a run, in order. -/
def fetchedPages (evs : List Ev) : List String :=
  evs.filterMap (fun e =>
    match e with
    | Ev.fetchPage u => some u
    | _ => none)

/-- The single-video sends of a run: URL and delivery bit, in order. -/
def videoSends (evs : List Ev) : List (String × Bool) :=
  evs.filterMap (fun e =>
    match e with
    | Ev.sendVideo u b => some (u, b)
    | _ => none)

/-- Every ledger add in the trace happens immediately after the matching
successful download: no event separates a download from the add it
triggers, and no add occurs without one. -/
def marksFollowDownloads : List Ev → Bool
  | [] => true
  | Ev.download u true :: Ev.mark v :: rest =>
    u = v && marksFollowDownloads rest
  | Ev.mark _ :: _ => false
  | _ :: rest => marksFollowDownloads rest

/-- Scanning the trace left to right with the set of URLs already added
to the ledger: every channel send in the trace only carries URLs that
were added BEFORE it — the marking is optimistic, preceding the send. -/
def sendsAfterMarks (seen : List String) : List Ev → Bool
  | [] => true
  | Ev.mark u :: rest => sendsAfterMarks (seen ++ [u]) rest
  | Ev.sendVideo u _ :: rest => seen.contains u && sendsAfterMarks seen rest
  | Ev.sendPhotos g _ :: rest => g.all seen.contains && sendsAfterMarks seen rest
  | _ :: rest => sendsAfterMarks seen rest

/-- A URL reaches a photo batch when its download succeeded and, for a
WebP payload, the conversion also succeeded. -/
def batchOk (env : Env) (u : String) : Bool :=
  env.dl u && !(isWebpUrl u && !env.conv u)

/-- Every send attempt in a retry trace is immediately preceded by a
cursor rewind (the file-pointer reset at the top of the retry loop). -/
def rewindsPrecedeAttempts : List REv → Bool
  | [] => true
  | REv.rewind :: REv.attempt :: rest => rewindsPrecedeAttempts rest
  | REv.attempt :: _ => false
  | _ :: rest => rewindsPrecedeAttempts rest

-- ========================
-- Candidate streams of the Pattern Extractor (for its characterization)
-- ========================

/-- The raw attribute values of a page's media tags in discovery order. -/
def directLinks (pg : Page) : List String :=
  pg.mediaTags.flatMap tagLinks

/-- A link's contribution to the image list, before deduplication: the
resolved URL when it is not ignored and its path carries an image
extension. -/
def imgCandidate (pageUrl link : String) : Option String :=
  let full := urljoin pageUrl link
  if IGNORED_MEDIA_PATTERNS.any (fun p => strContains full p) then none
  else
    let path := urlPathLower full
    if [".jpg", ".jpeg", ".png", ".webp"].any (fun e => strEndsWith path e) then
      some full
    else none

/-- A link's contribution to the gif list, before deduplication. -/
def gifCandidate (pageUrl link : String) : Option String :=
  let full := urljoin pageUrl link
  if IGNORED_MEDIA_PATTERNS.any (fun p => strContains full p) then none
  else
    let path := urlPathLower full
    if [".jpg", ".jpeg", ".png", ".webp"].any (fun e => strEndsWith path e) then
      none
    else if strEndsWith path ".gif" then some full
    else none

/-- A link's contribution to the video list, before deduplication. -/
def vidCandidate (pageUrl link : String) : Option String :=
  let full := urljoin pageUrl link
  if IGNORED_MEDIA_PATTERNS.any (fun p => strContains full p) then none
  else
    let path := urlPathLower full
    if [".jpg", ".jpeg", ".png", ".webp"].any (fun e => strEndsWith path e) then
      none
    else if strEndsWith path ".gif" then none
    else if [".mp4", ".webm", ".mov"].any (fun e => strEndsWith path e) then
      some full
    else none

/-- The image candidates of a page in first-discovered order. -/
def imageCandidates (pageUrl : String) (pg : Page) : List String :=
  (directLinks pg).filterMap (imgCandidate pageUrl)

/-- The gif candidates of a page in first-discovered order. -/
def gifCandidates (pageUrl : String) (pg : Page) : List String :=
  (directLinks pg).filterMap (gifCandidate pageUrl)

/-- The direct video candidates of a page in first-discovered order. -/
def videoCandidates (pageUrl : String) (pg : Page) : List String :=
  (directLinks pg).filterMap (vidCandidate pageUrl)

/-- The embed-resolved video candidates of an iframe list, in order. -/
def embedCandidates (resolve : String → Option String) (pageUrl : String)
    (ifr : List (Option String)) : List String :=
  ifr.filterMap (fun s? =>
    s?.bind (fun s => if s = "" then none else resolve (urljoin pageUrl s)))

-- ========================
-- Helper lemmas: the insert-if-new accumulation idiom
-- ========================

theorem mem_foldl_insertIfNew (l : List String) (acc : List String) (x : String) :
    x ∈ l.foldl insertIfNew acc ↔ x ∈ acc ∨ x ∈ l := by
  induction l generalizing acc with
  | nil => simp
  | cons a t ih =>
    simp only [List.foldl_cons]
    rw [ih]
    unfold insertIfNew
    split
    · simp only [List.mem_cons]
      constructor
      · rintro (h1 | h1)
        · exact Or.inl h1
        · exact Or.inr (Or.inr h1)
      · rintro (h1 | h1 | h1)
        · exact Or.inl h1
        · subst h1; exact Or.inl (by assumption)
        · exact Or.inr h1
    · simp only [List.mem_append, List.mem_singleton, List.mem_cons]
      tauto

theorem nodup_foldl_insertIfNew (l : List String) (acc : List String)
    (h : acc.Nodup) : (l.foldl insertIfNew acc).Nodup := by
  induction l generalizing acc with
  | nil => simpa
  | cons a t ih =>
    simp only [List.foldl_cons]
    apply ih
    unfold insertIfNew
    split
    · exact h
    · simp only [List.nodup_append, List.nodup_singleton, true_and]
      exact ⟨h, by simpa [List.disjoint_left] using (by assumption)⟩

theorem sublist_foldl_insertIfNew (l : List String) (acc : List String) :
    ∃ e, l.foldl insertIfNew acc = acc ++ e ∧ e.Sublist l := by
  induction l generalizing acc with
  | nil => exact ⟨[], by simp, List.nil_sublist []⟩
  | cons a t ih =>
    simp only [List.foldl_cons]
    by_cases hm : a ∈ acc
    · obtain ⟨e, he, hs⟩ := ih acc
      rw [insertIfNew, if_pos hm]
      exact ⟨e, he, hs.cons a⟩
    · obtain ⟨e, he, hs⟩ := ih (acc ++ [a])
      rw [insertIfNew, if_neg hm]
      exact ⟨a :: e, he.trans (by simp), hs.cons₂ a⟩

theorem dedupKeepFirst_nodup (l : List String) : (dedupKeepFirst l).Nodup :=
  nodup_foldl_insertIfNew l [] List.nodup_nil

theorem dedupKeepFirst_sublist (l : List String) : (dedupKeepFirst l).Sublist l := by
  obtain ⟨e, he, hs⟩ := sublist_foldl_insertIfNew l []
  simpa [dedupKeepFirst, he]

theorem mem_dedupKeepFirst (l : List String) (x : String) :
    x ∈ dedupKeepFirst l ↔ x ∈ l := by
  simpa [dedupKeepFirst] using mem_foldl_insertIfNew l [] x

-- ========================
-- Characterization of the Pattern Extractor
-- ========================

theorem classify_foldl (pageUrl : String) (links : List String) (m : PageMedia) :
    links.foldl (classifyLink pageUrl) m =
      ⟨(links.filterMap (imgCandidate pageUrl)).foldl insertIfNew m.images,
       (links.filterMap (vidCandidate pageUrl)).foldl insertIfNew m.videos,
       (links.filterMap (gifCandidate pageUrl)).foldl insertIfNew m.gifs⟩ := by
  induction links generalizing m with
  | nil => rfl
  | cons l t ih =>
    simp only [List.foldl_cons, List.filterMap_cons]
    rw [ih]
    simp only [classifyLink, imgCandidate, vidCandidate, gifCandidate]
    generalize (IGNORED_MEDIA_PATTERNS.any fun p =>
      strContains (urljoin pageUrl l) p) = cIg
    generalize ([".jpg", ".jpeg", ".png", ".webp"].any fun e =>
      strEndsWith (urlPathLower (urljoin pageUrl l)) e) = cImg
    generalize (strEndsWith (urlPathLower (urljoin pageUrl l)) ".gif") = cGif
    generalize ([".mp4", ".webm", ".mov"].any fun e =>
      strEndsWith (urlPathLower (urljoin pageUrl l)) e) = cVid
    cases cIg <;> cases cImg <;> cases cGif <;> cases cVid <;> simp

theorem foldl_tags_eq (pageUrl : String) (tags : List MTag) (m : PageMedia) :
    tags.foldl (fun m t => (tagLinks t).foldl (classifyLink pageUrl) m) m =
      (tags.flatMap tagLinks).foldl (classifyLink pageUrl) m := by
  induction tags generalizing m with
  | nil => rfl
  | cons a t ih => simp only [List.foldl_cons, List.flatMap_cons, List.foldl_append, ih]

theorem addEmbeds_eq (resolve : String → Option String) (pageUrl : String)
    (ifr : List (Option String)) (m : PageMedia) :
    addEmbeds resolve pageUrl m ifr =
      { m with videos :=
          (embedCandidates resolve pageUrl ifr).foldl insertIfNew m.videos } := by
  induction ifr generalizing m with
  | nil => rfl
  | cons s? t ih =>
    simp only [addEmbeds, embedCandidates, List.foldl_cons, List.filterMap_cons] at *
    cases s? with
    | none => simpa using ih m
    | some s =>
      by_cases hs : s = ""
      · simpa [hs] using ih m
      · cases hr : resolve (urljoin pageUrl s) with
        | none => simpa [hs, hr] using ih m
        | some v => simpa [hs, hr] using ih { m with videos := insertIfNew m.videos v }

theorem extract_eq_of_fetch (fetch : String → Option Page)
    (resolve : String → Option String) (url : String) (pg : Page)
    (h : fetch url = some pg) :
    extract_media_from_page fetch resolve url =
      (⟨(dedupKeepFirst (imageCandidates url pg)).take 50,
        (dedupKeepFirst
          (videoCandidates url pg ++ embedCandidates resolve url pg.iframes)).take 20,
        (dedupKeepFirst (gifCandidates url pg)).take 10⟩,
       none, nextPageOf url pg.anchors) := by
  simp only [extract_media_from_page, h]
  rw [foldl_tags_eq, classify_foldl, addEmbeds_eq]
  simp only [dedupKeepFirst, imageCandidates, videoCandidates, gifCandidates,
    directLinks, List.foldl_append]

theorem extract_images_nodup (fetch : String → Option Page)
    (resolve : String → Option String) (url : String) :
    (extract_media_from_page fetch resolve url).1.images.Nodup := by
  cases h : fetch url with
  | none => simp [extract_media_from_page, h]
  | some pg =>
    rw [extract_eq_of_fetch fetch resolve url pg h]
    exact List.Nodup.sublist (List.take_sublist _ _) (dedupKeepFirst_nodup _)

/-- C7: for every page processed in media-scraper mode, the extractor
returns at most 50 image references, 20 video references and 10 gif
references; each kind's list is the first-occurrence deduplication of
that kind's candidate stream truncated to the cap, hence deduplicated
within the page and in first-discovered order (an order-preserving
subsequence of the discovery stream); in particular a page whose
deduplicated image stream has at least 50 entries (e.g. 1000 candidate
images) returns exactly the first 50 discovered. -/
theorem claim_C7_per_page_caps (fetch : String → Option Page)
    (resolve : String → Option String) (url : String) (pg : Page)
    (h : fetch url = some pg) :
    (extract_media_from_page fetch resolve url).1.images
      = (dedupKeepFirst (imageCandidates url pg)).take 50 ∧
    (extract_media_from_page fetch resolve url).1.videos
      = (dedupKeepFirst
          (videoCandidates url pg ++ embedCandidates resolve url pg.iframes)).take 20 ∧
    (extract_media_from_page fetch resolve url).1.gifs
      = (dedupKeepFirst (gifCandidates url pg)).take 10 ∧
    (extract_media_from_page fetch resolve url).1.images.Nodup ∧
    (extract_media_from_page fetch resolve url).1.videos.Nodup ∧
    (extract_media_from_page fetch resolve url).1.gifs.Nodup ∧
    (extract_media_from_page fetch resolve url).1.images.Sublist
      (imageCandidates url pg) ∧
    (extract_media_from_page fetch resolve url).1.videos.Sublist
      (videoCandidates url pg ++ embedCandidates resolve url pg.iframes) ∧
    (extract_media_from_page fetch resolve url).1.gifs.Sublist
      (gifCandidates url pg) ∧
    (extract_media_from_page fetch resolve url).1.images.length ≤ 50 ∧
    (extract_media_from_page fetch resolve url).1.videos.length ≤ 20 ∧
    (extract_media_from_page fetch resolve url).1.gifs.length ≤ 10 ∧
    (50 ≤ (dedupKeepFirst (imageCandidates url pg)).length →
      (extract_media_from_page fetch resolve url).1.images.length = 50) := by
  rw [extract_eq_of_fetch fetch resolve url pg h]
  refine ⟨rfl, rfl, rfl, ?_, ?_, ?_, ?_, ?_, ?_, ?_, ?_, ?_, ?_⟩
  · exact List.Nodup.sublist (List.take_sublist _ _) (dedupKeepFirst_nodup _)
  · exact List.Nodup.sublist (List.take_sublist _ _) (dedupKeepFirst_nodup _)
  · exact List.Nodup.sublist (List.take_sublist _ _) (dedupKeepFirst_nodup _)
  · exact (List.take_sublist _ _).trans (dedupKeepFirst_sublist _)
  · exact (List.take_sublist _ _).trans (dedupKeepFirst_sublist _)
  · exact (List.take_sublist _ _).trans (dedupKeepFirst_sublist _)
  · exact List.length_take_le 50 _
  · exact List.length_take_le 20 _
  · exact List.length_take_le 10 _
  · intro hlen
    simp [List.length_take]
    omega

/-- Witness for C7 at a concrete page: two media tags surface
`http://h/a.jpg` twice and `http://h/b.mp4` once; the extractor's image
list is the deduplicated, capped candidate stream, which here evaluates
to a single `http://h/a.jpg` entry. -/
theorem claim_C7_per_page_caps_witness :
    (extract_media_from_page
        (fun u => if u = "http://s" then
          some (⟨[⟨some "http://h/a.jpg", none, none⟩,
                  ⟨some "http://h/b.mp4", some "http://h/a.jpg", none⟩], [], []⟩ : Page)
         else none)
        (fun _ => none) "http://s").1.images
      = (dedupKeepFirst (imageCandidates "http://s"
          (⟨[⟨some "http://h/a.jpg", none, none⟩,
             ⟨some "http://h/b.mp4", some "http://h/a.jpg", none⟩], [], []⟩ : Page))).take 50 ∧
    (dedupKeepFirst (imageCandidates "http://s"
        (⟨[⟨some "http://h/a.jpg", none, none⟩,
           ⟨some "http://h/b.mp4", some "http://h/a.jpg", none⟩], [], []⟩ : Page))).take 50
      = ["http://h/a.jpg"] :=
  ⟨(claim_C7_per_page_caps _ (fun _ => none) "http://s" _ (by decide)).1, by decide⟩

-- ========================
-- C8: Embed Resolver
-- ========================

/-- C8: the Embed Resolver returns no result on any fetch or status error
(the exception is absorbed at this boundary); on success it applies its
patterns in listed order over the body — the first pattern that matches
wins regardless of later patterns, and a non-matching pattern falls
through to the next; the winning match is stripped, its escaped path
separators are unescaped to plain slashes, and the result is resolved
against the embed-page URL. -/
theorem claim_C8_embed_resolver (fetch : String → String → Option String)
    (matchers : List (String → Option String)) (p : String → Option String)
    (ps : List (String → Option String)) (embedUrl referer body g : String) :
    (fetch embedUrl referer = none →
      scrape_embedded_video fetch matchers embedUrl referer = none) ∧
    (fetch embedUrl referer = some body →
      scrape_embedded_video fetch matchers embedUrl referer =
        (firstMatch matchers body).map
          (fun m => urljoin embedUrl (unescapeSlashes (strTrim m)))) ∧
    (fetch embedUrl referer = some body → p body = some g →
      scrape_embedded_video fetch (p :: ps) embedUrl referer =
        some (urljoin embedUrl (unescapeSlashes (strTrim g)))) ∧
    (fetch embedUrl referer = some body → p body = none →
      scrape_embedded_video fetch (p :: ps) embedUrl referer =
        scrape_embedded_video fetch ps embedUrl referer) ∧
    unescapeSlashes "http:\x5c/\x5c/h\x5c/v.mp4" = "http://h/v.mp4" := by
  refine ⟨?_, ?_, ?_, ?_, by decide⟩
  · intro h
    simp [scrape_embedded_video, h]
  · intro h
    cases hm : firstMatch matchers body <;>
      simp [scrape_embedded_video, h, hm]
  · intro h hp
    simp [scrape_embedded_video, firstMatch, h, hp]
  · intro h hp
    simp [scrape_embedded_video, firstMatch, h, hp]

/-- Witness for C8: a matcher returning ` a\/b.mp4 ` (with surrounding
whitespace and an escaped separator) resolves to `http://embed/a/b.mp4`
against the embed page `http://embed/x`. -/
theorem claim_C8_embed_resolver_witness :
    scrape_embedded_video (fun _ _ => some "body")
      [fun _ => some " a\x5c/b.mp4 "] "http://embed/x" "http://page"
      = some "http://embed/a/b.mp4" :=
  ((claim_C8_embed_resolver (fun _ _ => some "body")
      [fun _ => some " a\x5c/b.mp4 "] (fun _ => some " a\x5c/b.mp4 ") []
      "http://embed/x" "http://page" "body" " a\x5c/b.mp4 ").2.2.1
    rfl rfl).trans (by decide)

-- ========================
-- C2: the retry wrapper
-- ========================

/-- C2 counterexample: rate-limit signals consume the shared 3-attempt
budget.  A channel that answers the first three attempts with rate-limit
signals (and would succeed afterwards) never gets a fourth attempt: the
run makes exactly 3 attempts, sleeps the signalled cooldown each time,
and gives the payload up — contrary to the claimed unbounded rate-limit
retry. -/
theorem claim_C2_counterexample :
    sendWithRetry (fun n => if n < 3 then ChanOutcome.rateLimited 4
        else ChanOutcome.success)
      = (false,
         [REv.rewind, REv.attempt, REv.sleep 4,
          REv.rewind, REv.attempt, REv.sleep 4,
          REv.rewind, REv.attempt, REv.sleep 4]) := by decide

/-- C2 corrected: the wrapper makes at most 3 attempts in total, with
rate-limit retries and other-error retries drawing on the same budget;
every attempt is immediately preceded by a cursor rewind; the payload is
sent exactly when the channel's first success comes within the first 3
attempts; a successful run ends with the fixed 2-second pause; a
rate-limit on an attempt sleeps the channel-specified cooldown, and a
non-rate-limit channel error on a non-final attempt sleeps the fixed
5-second delay. -/
theorem claim_C2_amended (script : Nat → ChanOutcome) :
    ((sendWithRetry script).2.count REv.attempt ≤ 3) ∧
    (rewindsPrecedeAttempts (sendWithRetry script).2 = true) ∧
    ((sendWithRetry script).1 = true ↔
      script 0 = ChanOutcome.success ∨
      (script 0 ≠ ChanOutcome.success ∧ script 1 = ChanOutcome.success) ∨
      (script 0 ≠ ChanOutcome.success ∧ script 1 ≠ ChanOutcome.success ∧
        script 2 = ChanOutcome.success)) ∧
    ((sendWithRetry script).1 = true →
      (sendWithRetry script).2.getLast? = some (REv.sleep 2)) ∧
    (∀ s, script 0 = ChanOutcome.rateLimited s →
      REv.sleep s ∈ (sendWithRetry script).2) ∧
    (script 0 = ChanOutcome.chanError →
      REv.sleep 5 ∈ (sendWithRetry script).2) := by
  rcases h0 : script 0 with _ | s0 | _ <;>
    rcases h1 : script 1 with _ | s1 | _ <;>
      rcases h2 : script 2 with _ | s2 | _ <;>
        simp [sendWithRetry, sendRetryAux, rewindsPrecedeAttempts, h0, h1, h2]

/-- Witness for C2's corrected statement: a channel that rate-limits the
first attempt with a 7-second cooldown and then succeeds: the payload is
sent and the 7-second cooldown sleep is in the trace. -/
theorem claim_C2_amended_witness :
    (sendWithRetry (fun n => if n = 0 then ChanOutcome.rateLimited 7
        else ChanOutcome.success)).1 = true ∧
    REv.sleep 7 ∈ (sendWithRetry (fun n => if n = 0 then ChanOutcome.rateLimited 7
        else ChanOutcome.success)).2 := by
  refine ⟨?_, ?_⟩
  · exact ((claim_C2_amended (fun n => if n = 0 then ChanOutcome.rateLimited 7
      else ChanOutcome.success)).2.2.1).mpr (by decide)
  · exact (claim_C2_amended (fun n => if n = 0 then ChanOutcome.rateLimited 7
      else ChanOutcome.success)).2.2.2.2.1 7 (by decide)

-- ========================
-- C1: video-links run-wide deduplication
-- ========================

/-- C1 counterexample: two seed pages surface the same video URL
`http://h/v.mp4` under the different titles `A` and `B`.
`list(dict(all_links).items())` keys the dictionary by TITLE (the first
tuple component), so both pairs survive and the artifact carries two
lines for that URL — not exactly one line with the first-seen title. -/
theorem claim_C1_counterexample :
    process_video_links
      (fun s => if s = "http://s1" then [("A", "http://h/v.mp4")]
        else if s = "http://s2" then [("B", "http://h/v.mp4")] else [])
      (fun _ => false) ["http://s1", "http://s2"]
      = some [("A", "http://h/v.mp4"), ("B", "http://h/v.mp4")] ∧
    ((artifactLines [("A", "http://h/v.mp4"), ("B", "http://h/v.mp4")]).filter
      (fun ln => strEndsWith ln "http://h/v.mp4")).length = 2 := by decide

theorem dictInsert_keys_nodup (acc : List (String × String))
    (kv : String × String) (h : (acc.map Prod.fst).Nodup) :
    ((dictInsert acc kv).map Prod.fst).Nodup := by
  unfold dictInsert
  split
  · have heq : (acc.map (fun p => if p.1 = kv.1 then (p.1, kv.2) else p)).map Prod.fst
        = acc.map Prod.fst := by
      rw [List.map_map]
      apply List.map_congr_left
      intro p _
      by_cases hp : p.1 = kv.1 <;> simp [hp]
    rw [heq]
    exact h
  · rename_i hany
    simp only [List.map_append, List.map_cons, List.map_nil]
    rw [List.nodup_append]
    refine ⟨h, List.nodup_singleton _, ?_⟩
    intro x hx
    simp only [List.mem_singleton]
    intro hk
    subst hk
    obtain ⟨p, hp, hpk⟩ := List.mem_map.mp hx
    exact hany (List.any_eq_true.mpr ⟨p, hp, by simp [hpk]⟩)

theorem pyDictItems_keys_nodup (l : List (String × String)) :
    ((pyDictItems l).map Prod.fst).Nodup := by
  suffices h : ∀ acc : List (String × String), (acc.map Prod.fst).Nodup →
      ((l.foldl dictInsert acc).map Prod.fst).Nodup by
    exact h [] (by simp)
  induction l with
  | nil => intro acc h; simpa
  | cons a t ih =>
    intro acc h
    exact ih _ (dictInsert_keys_nodup acc a h)

/-- C1 corrected: at the end of a video-links run the accumulated
`(title, url)` pairs are deduplicated by page TITLE, not by URL: each
title keeps its first-seen position and the LAST-seen URL for that title
wins, and the kept list always has pairwise-distinct titles.  In
particular two seed pages that surface the same video URL under two
different titles yield one artifact line per title (two lines for that
URL), while two pages that surface different URLs under one shared title
collapse to a single line carrying the last-seen URL. -/
theorem claim_C1_amended (t1 t2 u u1 u2 s1 s2 : String)
    (ht : t1 ≠ t2) (hs : normalizeUrl s1 ≠ normalizeUrl s2) :
    (process_video_links
        (fun s => if s = normalizeUrl s1 then [(t1, u)]
          else if s = normalizeUrl s2 then [(t2, u)] else [])
        (fun _ => false) [s1, s2] = some [(t1, u), (t2, u)]) ∧
    (process_video_links
        (fun s => if s = normalizeUrl s1 then [(t1, u1)]
          else if s = normalizeUrl s2 then [(t1, u2)] else [])
        (fun _ => false) [s1, s2] = some [(t1, u2)]) ∧
    (∀ l : List (String × String), ((pyDictItems l).map Prod.fst).Nodup) := by
  refine ⟨?_, ?_, fun l => pyDictItems_keys_nodup l⟩
  · simp [process_video_links, collectVideoLinks, pyDictItems, dictInsert,
      hs, Ne.symm hs, ht, Ne.symm ht]
  · simp [process_video_links, collectVideoLinks, pyDictItems, dictInsert,
      hs, Ne.symm hs]

/-- Witness for C1's corrected statement at concrete seeds, titles and
URL. -/
theorem claim_C1_amended_witness :
    process_video_links
      (fun s => if s = normalizeUrl "http://s1" then [("A", "http://h/v.mp4")]
        else if s = normalizeUrl "http://s2" then [("B", "http://h/v.mp4")] else [])
      (fun _ => false) ["http://s1", "http://s2"]
      = some [("A", "http://h/v.mp4"), ("B", "http://h/v.mp4")] :=
  (claim_C1_amended "A" "B" "http://h/v.mp4" "x" "y" "http://s1" "http://s2"
    (by decide) (by decide)).1

-- ========================
-- Reduction lemmas for the trace observations
-- ========================

@[simp] theorem photoGroups_nil : photoGroups [] = [] := rfl

@[simp] theorem photoGroups_fetch (u : String) (evs : List Ev) :
    photoGroups (Ev.fetchPage u :: evs) = photoGroups evs := rfl

@[simp] theorem photoGroups_download (u : String) (b : Bool) (evs : List Ev) :
    photoGroups (Ev.download u b :: evs) = photoGroups evs := rfl

@[simp] theorem photoGroups_mark (u : String) (evs : List Ev) :
    photoGroups (Ev.mark u :: evs) = photoGroups evs := rfl

@[simp] theorem photoGroups_sendPhotos (g : List String) (b : Bool) (evs : List Ev) :
    photoGroups (Ev.sendPhotos g b :: evs) = g :: photoGroups evs := rfl

@[simp] theorem photoGroups_sendVideo (u : String) (b : Bool) (evs : List Ev) :
    photoGroups (Ev.sendVideo u b :: evs) = photoGroups evs := rfl

@[simp] theorem markedUrls_nil : markedUrls [] = [] := rfl

@[simp] theorem markedUrls_fetch (u : String) (evs : List Ev) :
    markedUrls (Ev.fetchPage u :: evs) = markedUrls evs := rfl

@[simp] theorem markedUrls_download (u : String) (b : Bool) (evs : List Ev) :
    markedUrls (Ev.download u b :: evs) = markedUrls evs := rfl

@[simp] theorem markedUrls_mark (u : String) (evs : List Ev) :
    markedUrls (Ev.mark u :: evs) = u :: markedUrls evs := rfl

@[simp] theorem markedUrls_sendPhotos (g : List String) (b : Bool) (evs : List Ev) :
    markedUrls (Ev.sendPhotos g b :: evs) = markedUrls evs := rfl

@[simp] theorem markedUrls_sendVideo (u : String) (b : Bool) (evs : List Ev) :
    markedUrls (Ev.sendVideo u b :: evs) = markedUrls evs := rfl

@[simp] theorem downloadEvents_nil : downloadEvents [] = [] := rfl

@[simp] theorem downloadEvents_fetch (u : String) (evs : List Ev) :
    downloadEvents (Ev.fetchPage u :: evs) = downloadEvents evs := rfl

@[simp] theorem downloadEvents_download (u : String) (b : Bool) (evs : List Ev) :
    downloadEvents (Ev.download u b :: evs) = (u, b) :: downloadEvents evs := rfl

@[simp] theorem downloadEvents_mark (u : String) (evs : List Ev) :
    downloadEvents (Ev.mark u :: evs) = downloadEvents evs := rfl

@[simp] theorem downloadEvents_sendPhotos (g : List String) (b : Bool) (evs : List Ev) :
    downloadEvents (Ev.sendPhotos g b :: evs) = downloadEvents evs := rfl

@[simp] theorem downloadEvents_sendVideo (u : String) (b : Bool) (evs : List Ev) :
    downloadEvents (Ev.sendVideo u b :: evs) = downloadEvents evs := rfl

@[simp] theorem fetchedPages_nil : fetchedPages [] = [] := rfl

@[simp] theorem fetchedPages_fetch (u : String) (evs : List Ev) :
    fetchedPages (Ev.fetchPage u :: evs) = u :: fetchedPages evs := rfl

@[simp] theorem fetchedPages_download (u : String) (b : Bool) (evs : List Ev) :
    fetchedPages (Ev.download u b :: evs) = fetchedPages evs := rfl

@[simp] theorem fetchedPages_mark (u : String) (evs : List Ev) :
    fetchedPages (Ev.mark u :: evs) = fetchedPages evs := rfl

@[simp] theorem fetchedPages_sendPhotos (g : List String) (b : Bool) (evs : List Ev) :
    fetchedPages (Ev.sendPhotos g b :: evs) = fetchedPages evs := rfl

@[simp] theorem fetchedPages_sendVideo (u : String) (b : Bool) (evs : List Ev) :
    fetchedPages (Ev.sendVideo u b :: evs) = fetchedPages evs := rfl

@[simp] theorem videoSends_nil : videoSends [] = [] := rfl

@[simp] theorem videoSends_fetch (u : String) (evs : List Ev) :
    videoSends (Ev.fetchPage u :: evs) = videoSends evs := rfl

@[simp] theorem videoSends_download (u : String) (b : Bool) (evs : List Ev) :
    videoSends (Ev.download u b :: evs) = videoSends evs := rfl

@[simp] theorem videoSends_mark (u : String) (evs : List Ev) :
    videoSends (Ev.mark u :: evs) = videoSends evs := rfl

@[simp] theorem videoSends_sendPhotos (g : List String) (b : Bool) (evs : List Ev) :
    videoSends (Ev.sendPhotos g b :: evs) = videoSends evs := rfl

@[simp] theorem videoSends_sendVideo (u : String) (b : Bool) (evs : List Ev) :
    videoSends (Ev.sendVideo u b :: evs) = (u, b) :: videoSends evs := rfl

@[simp] theorem marksFollowDownloads_nil : marksFollowDownloads [] = true := rfl

@[simp] theorem marksFollowDownloads_pair (u v : String) (evs : List Ev) :
    marksFollowDownloads (Ev.download u true :: Ev.mark v :: evs)
      = (decide (u = v) && marksFollowDownloads evs) := rfl

@[simp] theorem marksFollowDownloads_download_false (u : String) (evs : List Ev) :
    marksFollowDownloads (Ev.download u false :: evs) = marksFollowDownloads evs := rfl

@[simp] theorem marksFollowDownloads_fetch (u : String) (evs : List Ev) :
    marksFollowDownloads (Ev.fetchPage u :: evs) = marksFollowDownloads evs := rfl

@[simp] theorem marksFollowDownloads_sendPhotos (g : List String) (b : Bool)
    (evs : List Ev) :
    marksFollowDownloads (Ev.sendPhotos g b :: evs) = marksFollowDownloads evs := rfl

@[simp] theorem marksFollowDownloads_sendVideo (u : String) (b : Bool)
    (evs : List Ev) :
    marksFollowDownloads (Ev.sendVideo u b :: evs) = marksFollowDownloads evs := rfl

@[simp] theorem sendsAfterMarks_nil (seen : List String) :
    sendsAfterMarks seen [] = true := rfl

@[simp] theorem sendsAfterMarks_fetch (seen : List String) (u : String)
    (evs : List Ev) :
    sendsAfterMarks seen (Ev.fetchPage u :: evs) = sendsAfterMarks seen evs := rfl

@[simp] theorem sendsAfterMarks_download (seen : List String) (u : String) (b : Bool)
    (evs : List Ev) :
    sendsAfterMarks seen (Ev.download u b :: evs) = sendsAfterMarks seen evs := rfl

@[simp] theorem sendsAfterMarks_mark (seen : List String) (u : String)
    (evs : List Ev) :
    sendsAfterMarks seen (Ev.mark u :: evs)
      = sendsAfterMarks (seen ++ [u]) evs := rfl

@[simp] theorem sendsAfterMarks_sendPhotos (seen : List String) (g : List String)
    (b : Bool) (evs : List Ev) :
    sendsAfterMarks seen (Ev.sendPhotos g b :: evs)
      = (g.all seen.contains && sendsAfterMarks seen evs) := rfl

@[simp] theorem sendsAfterMarks_sendVideo (seen : List String) (u : String) (b : Bool)
    (evs : List Ev) :
    sendsAfterMarks seen (Ev.sendVideo u b :: evs)
      = (seen.contains u && sendsAfterMarks seen evs) := rfl

-- ========================
-- Characterization of the send loops on cancel-free runs
-- ========================

theorem sendImagesAux_run (env : Env) (hf : ∀ i, env.flag i = false)
    (urls : List String) : ∀ (group : List String) (st : St),
    (sendImagesAux env group urls st).2.2 = false ∧
    (photoGroups (sendImagesAux env group urls st).2.1).flatten
      = group ++ urls.filter (batchOk env) ∧
    (group.length < 10 →
      ∀ g ∈ photoGroups (sendImagesAux env group urls st).2.1,
        g.length ≤ 10 ∧ g ≠ []) ∧
    markedUrls (sendImagesAux env group urls st).2.1 = urls.filter env.dl ∧
    downloadEvents (sendImagesAux env group urls st).2.1
      = urls.map (fun u => (u, env.dl u)) ∧
    fetchedPages (sendImagesAux env group urls st).2.1 = [] ∧
    videoSends (sendImagesAux env group urls st).2.1 = [] ∧
    (sendImagesAux env group urls st).1.sent
      = (urls.filter env.dl).foldl insertIfNew st.sent ∧
    marksFollowDownloads (sendImagesAux env group urls st).2.1 = true ∧
    (∀ seen, (∀ u ∈ group, u ∈ seen) →
      sendsAfterMarks seen (sendImagesAux env group urls st).2.1 = true) := by
  induction urls with
  | nil =>
    intro group st
    by_cases hg : group.isEmpty
    · have hge : group = [] := List.isEmpty_iff.mp hg
      subst hge
      simp [sendImagesAux]
    · have key : sendImagesAux env group [] st =
          ({ st with calls := st.calls + 1 },
           [Ev.sendPhotos group (sendWithRetry (env.chan st.calls)).1], false) := by
        simp [sendImagesAux, hg]
      have hgne : group ≠ [] := fun h => hg (by simp [h])
      refine ⟨by simp [key], by simp [key], ?_, by simp [key], by simp [key],
        by simp [key], by simp [key], by simp [key], by simp [key], ?_⟩
      · intro hlen g hgmem
        simp only [key, photoGroups_sendPhotos, photoGroups_nil,
          List.mem_singleton] at hgmem
        subst hgmem
        exact ⟨Nat.le_of_lt hlen, hgne⟩
      · intro seen hseen
        simp only [key, sendsAfterMarks_sendPhotos, sendsAfterMarks_nil,
          Bool.and_true, List.all_eq_true]
        intro v hv
        simpa using hseen v hv
  | cons u rest ih =>
    intro group st
    by_cases hdl : env.dl u
    · by_cases hw : (isWebpUrl u && !env.conv u) = true
      · -- download succeeded but the WebP conversion failed: marked, not batched
        have key : sendImagesAux env group (u :: rest) st =
            ((sendImagesAux env group rest
                { st with chk := st.chk + 1, sent := insertIfNew st.sent u }).1,
             [Ev.download u true, Ev.mark u] ++
               (sendImagesAux env group rest
                 { st with chk := st.chk + 1, sent := insertIfNew st.sent u }).2.1,
             (sendImagesAux env group rest
               { st with chk := st.chk + 1, sent := insertIfNew st.sent u }).2.2) := by
          simp [sendImagesAux, hf, hdl, hw]
        obtain ⟨ih1, ih2, ih3, ih4, ih5, ih6, ih7, ih8, ih9, ih10⟩ :=
          ih group { st with chk := st.chk + 1, sent := insertIfNew st.sent u }
        have hbo : batchOk env u = false := by
          simp [batchOk, hdl, hw]
        refine ⟨by simp [key, ih1], by simp [key, ih2, hbo], ?_,
          by simp [key, ih4, hdl], by simp [key, ih5, hdl], by simp [key, ih6],
          by simp [key, ih7], by simp [key, ih8, hdl], by simp [key, ih9], ?_⟩
        · intro hlen g hgmem
          refine ih3 hlen g ?_
          simpa [key] using hgmem
        · intro seen hseen
          simp only [key, List.cons_append, List.nil_append,
            sendsAfterMarks_download, sendsAfterMarks_mark]
          exact ih10 (seen ++ [u]) (fun v hv => List.mem_append_left _ (hseen v hv))
      · by_cases hlen : (group ++ [u]).length = 10
        · -- the batch reached 10 items: flush it, then continue with an empty batch
          have key : sendImagesAux env group (u :: rest) st =
              ((sendImagesAux env [] rest
                  { st with chk := st.chk + 1, sent := insertIfNew st.sent u,
                            calls := st.calls + 1 }).1,
               [Ev.download u true, Ev.mark u,
                Ev.sendPhotos (group ++ [u]) (sendWithRetry (env.chan st.calls)).1] ++
                 (sendImagesAux env [] rest
                   { st with chk := st.chk + 1, sent := insertIfNew st.sent u,
                             calls := st.calls + 1 }).2.1,
               (sendImagesAux env [] rest
                 { st with chk := st.chk + 1, sent := insertIfNew st.sent u,
                           calls := st.calls + 1 }).2.2) := by
            simp [sendImagesAux, hf, hdl, hw, hlen]
          obtain ⟨ih1, ih2, ih3, ih4, ih5, ih6, ih7, ih8, ih9, ih10⟩ :=
            ih [] { st with chk := st.chk + 1, sent := insertIfNew st.sent u,
                            calls := st.calls + 1 }
          have hw2 : (isWebpUrl u && !env.conv u) = false := by
            cases hbb : (isWebpUrl u && !env.conv u) with
            | false => rfl
            | true => exact absurd hbb hw
          have hbo : batchOk env u = true := by
            simp [batchOk, hdl, hw2]
          refine ⟨by simp [key, ih1], by simp [key, ih2, hbo], ?_,
            by simp [key, ih4, hdl], by simp [key, ih5, hdl], by simp [key, ih6],
            by simp [key, ih7], by simp [key, ih8, hdl], by simp [key, ih9], ?_⟩
          · intro hg10 g hgmem
            simp only [key, List.cons_append, List.nil_append, photoGroups_download,
              photoGroups_mark, photoGroups_sendPhotos, List.mem_cons] at hgmem
            rcases hgmem with hgmem | hgmem
            · subst hgmem
              exact ⟨Nat.le_of_eq hlen, by simp⟩
            · exact ih3 (by simp) g hgmem
          · intro seen hseen
            simp only [key, List.cons_append, List.nil_append,
              sendsAfterMarks_download, sendsAfterMarks_mark,
              sendsAfterMarks_sendPhotos, Bool.and_eq_true]
            constructor
            · rw [List.all_eq_true]
              intro v hv
              rcases List.mem_append.mp hv with hv | hv
              · simpa using List.mem_append_left [u] (hseen v hv)
              · simp only [List.mem_singleton] at hv
                subst hv
                simp
            · exact ih10 (seen ++ [u]) (by simp)
        · -- appended to the open batch
          have key : sendImagesAux env group (u :: rest) st =
              ((sendImagesAux env (group ++ [u]) rest
                  { st with chk := st.chk + 1, sent := insertIfNew st.sent u }).1,
               [Ev.download u true, Ev.mark u] ++
                 (sendImagesAux env (group ++ [u]) rest
                   { st with chk := st.chk + 1, sent := insertIfNew st.sent u }).2.1,
               (sendImagesAux env (group ++ [u]) rest
                 { st with chk := st.chk + 1, sent := insertIfNew st.sent u }).2.2) := by
            have hlen9 : ¬(group.length = 9) := by simpa using hlen
            simp [sendImagesAux, hf, hdl, hw, hlen9]
          obtain ⟨ih1, ih2, ih3, ih4, ih5, ih6, ih7, ih8, ih9, ih10⟩ :=
            ih (group ++ [u]) { st with chk := st.chk + 1,
                                        sent := insertIfNew st.sent u }
          have hw2 : (isWebpUrl u && !env.conv u) = false := by
            cases hbb : (isWebpUrl u && !env.conv u) with
            | false => rfl
            | true => exact absurd hbb hw
          have hbo : batchOk env u = true := by
            simp [batchOk, hdl, hw2]
          refine ⟨by simp [key, ih1], by simp [key, ih2, hbo], ?_,
            by simp [key, ih4, hdl], by simp [key, ih5, hdl], by simp [key, ih6],
            by simp [key, ih7], by simp [key, ih8, hdl], by simp [key, ih9], ?_⟩
          · intro hg10 g hgmem
            have hlt : (group ++ [u]).length < 10 := by
              simp only [List.length_append, List.length_singleton]
              simp only [List.length_append, List.length_singleton] at hlen
              omega
            refine ih3 hlt g ?_
            simpa [key] using hgmem
          · intro seen hseen
            simp only [key, List.cons_append, List.nil_append,
              sendsAfterMarks_download, sendsAfterMarks_mark]
            refine ih10 (seen ++ [u]) ?_
            intro v hv
            rcases List.mem_append.mp hv with hv | hv
            · exact List.mem_append_left _ (hseen v hv)
            · exact List.mem_append_right _ hv
    · -- the download failed: the URL is skipped
      have key : sendImagesAux env group (u :: rest) st =
          ((sendImagesAux env group rest { st with chk := st.chk + 1 }).1,
           [Ev.download u false] ++
             (sendImagesAux env group rest { st with chk := st.chk + 1 }).2.1,
           (sendImagesAux env group rest { st with chk := st.chk + 1 }).2.2) := by
        simp [sendImagesAux, hf, hdl]
      obtain ⟨ih1, ih2, ih3, ih4, ih5, ih6, ih7, ih8, ih9, ih10⟩ :=
        ih group { st with chk := st.chk + 1 }
      have hbo : batchOk env u = false := by
        simp [batchOk, hdl]
      refine ⟨by simp [key, ih1], by simp [key, ih2, hbo], ?_,
        by simp [key, ih4, hdl], by simp [key, ih5, hdl], by simp [key, ih6],
        by simp [key, ih7], by simp [key, ih8, hdl], by simp [key, ih9], ?_⟩
      · intro hg10 g hgmem
        refine ih3 hg10 g ?_
        simpa [key] using hgmem
      · intro seen hseen
        simp only [key, List.cons_append, List.nil_append, sendsAfterMarks_download]
        exact ih10 seen hseen

theorem send_videos_run (env : Env) (hf : ∀ i, env.flag i = false)
    (urls : List String) : ∀ st : St,
    (send_videos env urls st).2.2 = false ∧
    (videoSends (send_videos env urls st).2.1).map Prod.fst
      = urls.filter env.dl ∧
    markedUrls (send_videos env urls st).2.1 = urls.filter env.dl ∧
    downloadEvents (send_videos env urls st).2.1
      = urls.map (fun u => (u, env.dl u)) ∧
    fetchedPages (send_videos env urls st).2.1 = [] ∧
    photoGroups (send_videos env urls st).2.1 = [] ∧
    (send_videos env urls st).1.sent
      = (urls.filter env.dl).foldl insertIfNew st.sent ∧
    marksFollowDownloads (send_videos env urls st).2.1 = true ∧
    (∀ seen, sendsAfterMarks seen (send_videos env urls st).2.1 = true) := by
  induction urls with
  | nil =>
    intro st
    simp [send_videos]
  | cons u rest ih =>
    intro st
    by_cases hdl : env.dl u
    · have key : send_videos env (u :: rest) st =
          ((send_videos env rest
              { st with chk := st.chk + 1, sent := insertIfNew st.sent u,
                        calls := st.calls + 1 }).1,
           [Ev.download u true, Ev.mark u,
            Ev.sendVideo u (sendWithRetry (env.chan st.calls)).1] ++
             (send_videos env rest
               { st with chk := st.chk + 1, sent := insertIfNew st.sent u,
                         calls := st.calls + 1 }).2.1,
           (send_videos env rest
             { st with chk := st.chk + 1, sent := insertIfNew st.sent u,
                       calls := st.calls + 1 }).2.2) := by
        simp [send_videos, hf, hdl]
      obtain ⟨ih1, ih2, ih3, ih4, ih5, ih6, ih7, ih8, ih9⟩ :=
        ih { st with chk := st.chk + 1, sent := insertIfNew st.sent u,
                     calls := st.calls + 1 }
      refine ⟨by simp [key, ih1], by simp [key, ih2, hdl], by simp [key, ih3, hdl],
        by simp [key, ih4, hdl], by simp [key, ih5], by simp [key, ih6],
        by simp [key, ih7, hdl], by simp [key, ih8], ?_⟩
      intro seen
      simp only [key, List.cons_append, List.nil_append, sendsAfterMarks_download,
        sendsAfterMarks_mark, sendsAfterMarks_sendVideo, Bool.and_eq_true]
      exact ⟨by simp, ih9 (seen ++ [u])⟩
    · have key : send_videos env (u :: rest) st =
          ((send_videos env rest { st with chk := st.chk + 1 }).1,
           [Ev.download u false] ++
             (send_videos env rest { st with chk := st.chk + 1 }).2.1,
           (send_videos env rest { st with chk := st.chk + 1 }).2.2) := by
        simp [send_videos, hf, hdl]
      obtain ⟨ih1, ih2, ih3, ih4, ih5, ih6, ih7, ih8, ih9⟩ :=
        ih { st with chk := st.chk + 1 }
      refine ⟨by simp [key, ih1], by simp [key, ih2, hdl], by simp [key, ih3, hdl],
        by simp [key, ih4, hdl], by simp [key, ih5], by simp [key, ih6],
        by simp [key, ih7, hdl], by simp [key, ih8], ?_⟩
      intro seen
      simp only [key, List.cons_append, List.nil_append, sendsAfterMarks_download]
      exact ih9 seen

@[simp] theorem photoGroups_append (a b : List Ev) :
    photoGroups (a ++ b) = photoGroups a ++ photoGroups b :=
  List.filterMap_append a b _

@[simp] theorem markedUrls_append (a b : List Ev) :
    markedUrls (a ++ b) = markedUrls a ++ markedUrls b :=
  List.filterMap_append a b _

@[simp] theorem downloadEvents_append (a b : List Ev) :
    downloadEvents (a ++ b) = downloadEvents a ++ downloadEvents b :=
  List.filterMap_append a b _

@[simp] theorem fetchedPages_append (a b : List Ev) :
    fetchedPages (a ++ b) = fetchedPages a ++ fetchedPages b :=
  List.filterMap_append a b _

@[simp] theorem videoSends_append (a b : List Ev) :
    videoSends (a ++ b) = videoSends a ++ videoSends b :=
  List.filterMap_append a b _

-- ========================
-- C6: image batching
-- ========================

/-- C6: on a cancel-free run with no WebP transcoding involved, the image
delivery operation issues grouped-photo sends whose groups concatenate to
exactly the successfully downloaded URLs in order, every issued group is
non-empty with at most 10 items, exactly the successfully downloaded
URLs are marked as delivered (download failures are skipped), and every
URL in the list gets exactly one download attempt.  Instantiated at 25
URLs that all download, the groups are 10, 10 and 5 (see the witness). -/
theorem claim_C6_batching (env : Env) (urls : List String) (st : St)
    (hf : ∀ i, env.flag i = false) (hw : ∀ u ∈ urls, isWebpUrl u = false) :
    (photoGroups (send_images env urls st).2.1).flatten = urls.filter env.dl ∧
    (∀ g ∈ photoGroups (send_images env urls st).2.1, g.length ≤ 10 ∧ g ≠ []) ∧
    markedUrls (send_images env urls st).2.1 = urls.filter env.dl ∧
    downloadEvents (send_images env urls st).2.1
      = urls.map (fun u => (u, env.dl u)) ∧
    (send_images env urls st).2.2 = false := by
  obtain ⟨h1, h2, h3, h4, h5, _, _, _, _, _⟩ := sendImagesAux_run env hf urls [] st
  have hbatch : urls.filter (batchOk env) = urls.filter env.dl := by
    apply List.filter_congr
    intro u hu
    simp [batchOk, hw u hu]
  exact ⟨by simpa [send_images, hbatch] using h2,
    by simpa [send_images] using h3 (by simp),
    by simpa [send_images] using h4,
    by simpa [send_images] using h5,
    by simpa [send_images] using h1⟩

/-- Witness for C6: 25 image URLs, all downloading successfully, produce
exactly 3 grouped sends of sizes 10, 10 and 5, in that order, and all 25
are marked. -/
theorem claim_C6_batching_witness :
    (photoGroups (send_images
        ⟨fun _ => none, fun _ => none, fun _ => true, fun _ => true,
         fun _ _ => ChanOutcome.success, fun _ => false⟩
        ((List.range 25).map (fun i => "http://h/img" ++ toString i ++ ".jpg"))
        ⟨[], 0, 0⟩).2.1).flatten
      = ((List.range 25).map (fun i => "http://h/img" ++ toString i ++ ".jpg")).filter
          (fun _ => true) ∧
    (photoGroups (send_images
        ⟨fun _ => none, fun _ => none, fun _ => true, fun _ => true,
         fun _ _ => ChanOutcome.success, fun _ => false⟩
        ((List.range 25).map (fun i => "http://h/img" ++ toString i ++ ".jpg"))
        ⟨[], 0, 0⟩).2.1).map List.length = [10, 10, 5] := by
  constructor
  · exact (claim_C6_batching
      ⟨fun _ => none, fun _ => none, fun _ => true, fun _ => true,
       fun _ _ => ChanOutcome.success, fun _ => false⟩
      ((List.range 25).map (fun i => "http://h/img" ++ toString i ++ ".jpg"))
      ⟨[], 0, 0⟩ (fun _ => rfl) (by decide)).1
  · decide

-- ========================
-- C3: optimistic marking
-- ========================

/-- C3 counterexample: the channel fails every attempt with a
non-rate-limit error, so the retry wrapper drops the video without ever
delivering it — yet `send_videos` has already added the URL to
`SENT_MEDIA_URLS`: the trace is download, mark, then a FAILED send, and
the final ledger contains the URL although no successful channel send of
it ever happened.  This refutes "a URL is added only after a confirmed
successful delivery". -/
theorem claim_C3_counterexample :
    (send_videos
        ⟨fun _ => none, fun _ => none, fun _ => true, fun _ => true,
         fun _ _ => ChanOutcome.chanError, fun _ => false⟩
        ["http://h/v.mp4"] ⟨[], 0, 0⟩).2.1
      = [Ev.download "http://h/v.mp4" true, Ev.mark "http://h/v.mp4",
         Ev.sendVideo "http://h/v.mp4" false] ∧
    (send_videos
        ⟨fun _ => none, fun _ => none, fun _ => true, fun _ => true,
         fun _ _ => ChanOutcome.chanError, fun _ => false⟩
        ["http://h/v.mp4"] ⟨[], 0, 0⟩).1.sent = ["http://h/v.mp4"] := by decide

/-- C3 corrected: the ledger add is optimistic.  In every cancel-free run
of either delivery operation, the URLs added to `SENT_MEDIA_URLS` are
exactly the successfully DOWNLOADED ones — independent of any channel
outcome; every add event immediately follows its download event; and
every channel send event in the trace carries only URLs added BEFORE it.
So the add happens after the download and before the send, not after a
confirmed successful delivery. -/
theorem claim_C3_optimistic_marking (env : Env) (urls : List String) (st : St)
    (hf : ∀ i, env.flag i = false) :
    markedUrls (send_videos env urls st).2.1 = urls.filter env.dl ∧
    markedUrls (send_images env urls st).2.1 = urls.filter env.dl ∧
    marksFollowDownloads (send_videos env urls st).2.1 = true ∧
    marksFollowDownloads (send_images env urls st).2.1 = true ∧
    sendsAfterMarks [] (send_videos env urls st).2.1 = true ∧
    sendsAfterMarks [] (send_images env urls st).2.1 = true := by
  obtain ⟨_, _, hm, _, _, _, _, hmf, hsa⟩ := send_videos_run env hf urls st
  obtain ⟨_, _, _, hm2, _, _, _, _, hmf2, hsa2⟩ := sendImagesAux_run env hf urls [] st
  exact ⟨hm, by simpa [send_images] using hm2, hmf,
    by simpa [send_images] using hmf2, hsa [],
    by simpa [send_images] using hsa2 [] (by simp)⟩

/-- Witness for C3's corrected statement: one video URL, a channel that
always fails — the URL is still marked, exactly because it downloaded. -/
theorem claim_C3_optimistic_marking_witness :
    markedUrls (send_videos
        ⟨fun _ => none, fun _ => none, fun _ => true, fun _ => true,
         fun _ _ => ChanOutcome.chanError, fun _ => false⟩
        ["http://h/w.mp4"] ⟨[], 0, 0⟩).2.1
      = ["http://h/w.mp4"].filter (fun _ => true) :=
  (claim_C3_optimistic_marking
    ⟨fun _ => none, fun _ => none, fun _ => true, fun _ => true,
     fun _ _ => ChanOutcome.chanError, fun _ => false⟩
    ["http://h/w.mp4"] ⟨[], 0, 0⟩ (fun _ => rfl)).1

-- ========================
-- Controller-level characterization (cancel-free runs)
-- ========================

theorem mem_filter_not_sent {l sentL : List String} {u : String}
    (h : u ∈ l.filter (fun v => !sentL.contains v)) : u ∈ l ∧ u ∉ sentL := by
  rcases List.mem_filter.mp h with ⟨h1, h2⟩
  refine ⟨h1, ?_⟩
  simpa using h2

theorem deliverMedia_key (env : Env) (hf : ∀ i, env.flag i = false)
    (m : PageMedia) (st : St) :
    deliverMedia env m st =
      ((send_videos env (m.videos.filter (fun u => !st.sent.contains u))
          (send_images env (m.images.filter (fun u => !st.sent.contains u)) st).1).1,
       (send_images env (m.images.filter (fun u => !st.sent.contains u)) st).2.1 ++
         (send_videos env (m.videos.filter (fun u => !st.sent.contains u))
           (send_images env (m.images.filter (fun u => !st.sent.contains u)) st).1).2.1,
       (send_videos env (m.videos.filter (fun u => !st.sent.contains u))
         (send_images env (m.images.filter (fun u => !st.sent.contains u)) st).1).2.2) := by
  obtain ⟨i1, _, _, _, _, _, _, _, _, _⟩ :=
    sendImagesAux_run env hf (m.images.filter (fun u => !st.sent.contains u)) [] st
  simp only [deliverMedia]
  have hIi : (if (m.images.filter (fun u => !st.sent.contains u)).isEmpty
        then (st, ([] : List Ev), false)
        else send_images env (m.images.filter (fun u => !st.sent.contains u)) st)
      = send_images env (m.images.filter (fun u => !st.sent.contains u)) st := by
    split
    · next hi => rw [List.isEmpty_iff.mp hi]; rfl
    · rfl
  rw [hIi]
  rcases hsi : send_images env (m.images.filter (fun u => !st.sent.contains u)) st
    with ⟨st1, evs1, c1⟩
  rw [show c1 = false by
    have := i1
    rw [show sendImagesAux env []
        (m.images.filter (fun u => !st.sent.contains u)) st
      = send_images env (m.images.filter (fun u => !st.sent.contains u)) st from rfl,
      hsi] at this
    exact this]
  by_cases hv : (m.videos.filter (fun u => !st.sent.contains u)).isEmpty
  · rw [List.isEmpty_iff.mp hv]
    simp [send_videos]
  · rcases hsv : send_videos env (m.videos.filter (fun u => !st.sent.contains u)) st1
      with ⟨st2, evs2, c2⟩
    dsimp only
    rw [if_neg hv, hsv]

theorem deliverMedia_facts (env : Env) (hf : ∀ i, env.flag i = false)
    (m : PageMedia) (st : St) :
    (deliverMedia env m st).2.2 = false ∧
    (∀ u b, (u, b) ∈ downloadEvents (deliverMedia env m st).2.1 →
      (u ∈ m.images ∨ u ∈ m.videos) ∧ u ∉ st.sent) ∧
    (∀ u ∈ markedUrls (deliverMedia env m st).2.1,
      (u ∈ m.images ∨ u ∈ m.videos) ∧ u ∉ st.sent) ∧
    fetchedPages (deliverMedia env m st).2.1 = [] ∧
    (∀ u ∈ st.sent, u ∈ (deliverMedia env m st).1.sent) ∧
    (∀ g ∈ photoGroups (deliverMedia env m st).2.1, ∀ v ∈ g,
      v ∈ m.images ∧ v ∉ st.sent) ∧
    (∀ p ∈ videoSends (deliverMedia env m st).2.1,
      p.1 ∈ m.videos ∧ p.1 ∉ st.sent) := by
  obtain ⟨_, i2, _, i4, i5, i6, i7, i8, _, _⟩ :=
    sendImagesAux_run env hf (m.images.filter (fun u => !st.sent.contains u)) [] st
  obtain ⟨v1, v2, v3, v4, v5, v6, v7, _, _⟩ :=
    send_videos_run env hf (m.videos.filter (fun u => !st.sent.contains u))
      (send_images env (m.images.filter (fun u => !st.sent.contains u)) st).1
  rw [deliverMedia_key env hf m st]
  dsimp only
  simp only [send_images] at *
  refine ⟨v1, ?_, ?_, ?_, ?_, ?_, ?_⟩
  · intro u b hub
    rw [downloadEvents_append] at hub
    rcases List.mem_append.mp hub with hub | hub
    · rw [i5] at hub
      obtain ⟨a, ha, hab⟩ := List.mem_map.mp hub
      injection hab with h1 h2
      subst h1
      obtain ⟨hmem, hns⟩ := mem_filter_not_sent ha
      exact ⟨Or.inl hmem, hns⟩
    · rw [v4] at hub
      obtain ⟨a, ha, hab⟩ := List.mem_map.mp hub
      injection hab with h1 h2
      subst h1
      obtain ⟨hmem, hns⟩ := mem_filter_not_sent ha
      exact ⟨Or.inr hmem, hns⟩
  · intro u hu
    rw [markedUrls_append] at hu
    rcases List.mem_append.mp hu with hu | hu
    · rw [i4] at hu
      have hh := mem_filter_not_sent (List.mem_of_mem_filter hu)
      exact ⟨Or.inl hh.1, hh.2⟩
    · rw [v3] at hu
      have hh := mem_filter_not_sent (List.mem_of_mem_filter hu)
      exact ⟨Or.inr hh.1, hh.2⟩
  · rw [fetchedPages_append, i6, v5]
    rfl
  · intro u hu
    rw [v7, i8]
    rw [mem_foldl_insertIfNew]
    left
    rw [mem_foldl_insertIfNew]
    exact Or.inl hu
  · intro g hg v hv
    rw [photoGroups_append, v6, List.append_nil] at hg
    have hvmem : v ∈ (photoGroups
        (sendImagesAux env []
          (m.images.filter (fun u => !st.sent.contains u)) st).2.1).flatten :=
      List.mem_flatten.mpr ⟨g, hg, hv⟩
    rw [i2, List.nil_append] at hvmem
    exact mem_filter_not_sent (List.mem_of_mem_filter hvmem)
  · intro p hp
    rw [videoSends_append, i7, List.nil_append] at hp
    have : p.1 ∈ (videoSends (send_videos env
        (m.videos.filter (fun u => !st.sent.contains u))
        (sendImagesAux env []
          (m.images.filter (fun u => !st.sent.contains u)) st).1).2.1).map Prod.fst :=
      List.mem_map_of_mem Prod.fst hp
    rw [v2] at this
    exact mem_filter_not_sent (List.mem_of_mem_filter this)

theorem processPage_run (env : Env) (hf : ∀ i, env.flag i = false)
    (url : String) (st : St) :
    (processPage env url st).2.2 = false ∧
    fetchedPages (processPage env url st).2.1 = [url] ∧
    (∀ u b, (u, b) ∈ downloadEvents (processPage env url st).2.1 →
      (u ∈ (extract_media_from_page env.fetchPage env.resolveEmbed url).1.images ∨
       u ∈ (extract_media_from_page env.fetchPage env.resolveEmbed url).1.videos) ∧
      u ∉ st.sent) ∧
    (∀ u ∈ markedUrls (processPage env url st).2.1, u ∉ st.sent) ∧
    (∀ u ∈ st.sent, u ∈ (processPage env url st).1.sent) := by
  obtain ⟨d1, d2, d3, d4, d5, _, _⟩ :=
    deliverMedia_facts env hf (extract_media_from_page env.fetchPage env.resolveEmbed url).1 st
  rcases hd : deliverMedia env (extract_media_from_page env.fetchPage env.resolveEmbed url).1 st
    with ⟨st1, evs, c⟩
  rw [hd] at d1 d2 d3 d4 d5
  have key : processPage env url st = (st1, Ev.fetchPage url :: evs, c) := by
    simp [processPage, hd]
  rw [key]
  dsimp only at d1 d2 d3 d4 d5 ⊢
  refine ⟨d1, by simp [d4], by simpa using d2, ?_, d5⟩
  intro u hu
  rw [markedUrls_fetch] at hu
  exact (d3 u hu).2

theorem processSeeds_run (env : Env) (hf : ∀ i, env.flag i = false)
    (seeds : List String) : ∀ st : St,
    (processSeeds env seeds st).1 = Outcome.completed ∧
    fetchedPages (processSeeds env seeds st).2.2 = seeds.map normalizeUrl ∧
    (∀ u ∈ st.sent, u ∈ (processSeeds env seeds st).2.1.sent) ∧
    (∀ u ∈ st.sent,
      (∀ b, (u, b) ∉ downloadEvents (processSeeds env seeds st).2.2) ∧
      u ∉ markedUrls (processSeeds env seeds st).2.2) ∧
    (∀ u b, (u, b) ∈ downloadEvents (processSeeds env seeds st).2.2 →
      ∃ s ∈ seeds,
        u ∈ (extract_media_from_page env.fetchPage env.resolveEmbed
              (normalizeUrl s)).1.images ∨
        u ∈ (extract_media_from_page env.fetchPage env.resolveEmbed
              (normalizeUrl s)).1.videos) := by
  induction seeds with
  | nil =>
    intro st
    simp [processSeeds]
  | cons s rest ih =>
    intro st
    obtain ⟨p1, p2, p3, p4, p5⟩ :=
      processPage_run env hf (normalizeUrl s) { st with chk := st.chk + 1 }
    rcases hpp : processPage env (normalizeUrl s) { st with chk := st.chk + 1 }
      with ⟨st2, evs, c⟩
    rw [hpp] at p1 p2 p3 p4 p5
    dsimp only at p1 p2 p3 p4 p5
    subst p1
    obtain ⟨q1, q2, q3, q4, q5⟩ := ih st2
    rcases hps : processSeeds env rest st2 with ⟨o, st3, evs2⟩
    rw [hps] at q1 q2 q3 q4 q5
    dsimp only at q1 q2 q3 q4 q5
    have key : processSeeds env (s :: rest) st = (o, st3, evs ++ evs2) := by
      simp [processSeeds, hf, hpp, hps]
    rw [key]
    dsimp only
    refine ⟨q1, ?_, ?_, ?_, ?_⟩
    · rw [fetchedPages_append, p2, q2]
      rfl
    · intro u hu
      exact q3 u (p5 u hu)
    · intro u hu
      refine ⟨?_, ?_⟩
      · intro b hb
        rw [downloadEvents_append] at hb
        rcases List.mem_append.mp hb with hb | hb
        · exact (p3 u b hb).2 hu
        · exact (q4 u (p5 u hu)).1 b hb
      · intro hm
        rw [markedUrls_append] at hm
        rcases List.mem_append.mp hm with hm | hm
        · exact p4 u hm hu
        · exact (q4 u (p5 u hu)).2 hm
    · intro u b hb
      rw [downloadEvents_append] at hb
      rcases List.mem_append.mp hb with hb | hb
      · exact ⟨s, List.mem_cons_self s rest, (p3 u b hb).1⟩
      · obtain ⟨s2, hs2, hins⟩ := q5 u b hb
        exact ⟨s2, List.mem_cons_of_mem s hs2, hins⟩

-- ========================
-- C5: ledger monotonicity and no redelivery
-- ========================

/-- C5 counterexample: the SAME URL `http://h/a.jpg` surfaces both as a
direct image link and — through an iframe whose embed body yields it —
in the video list of the SAME page.  The ledger filter for both lists ran
once, before delivery; so after the image pass downloads, MARKS and sends
the URL, the video pass downloads and sends it AGAIN: a download of u
occurs after the add of u, refuting "the Delivery Engine never downloads
or sends u again". -/
theorem claim_C5_counterexample :
    (process_media_scraper
        ⟨fun v => if v = "http://s" then
            some ⟨[⟨some "http://h/a.jpg", none, none⟩], [some "http://e/1"], []⟩
          else none,
         fun v => if v = "http://e/1" then some "http://h/a.jpg" else none,
         fun _ => true, fun _ => true, fun _ _ => ChanOutcome.success,
         fun _ => false⟩
        ["http://s"]).2.2
      = [Ev.fetchPage "http://s",
         Ev.download "http://h/a.jpg" true, Ev.mark "http://h/a.jpg",
         Ev.sendPhotos ["http://h/a.jpg"] true,
         Ev.download "http://h/a.jpg" true, Ev.mark "http://h/a.jpg",
         Ev.sendVideo "http://h/a.jpg" true] ∧
    ((process_media_scraper
        ⟨fun v => if v = "http://s" then
            some ⟨[⟨some "http://h/a.jpg", none, none⟩], [some "http://e/1"], []⟩
          else none,
         fun v => if v = "http://e/1" then some "http://h/a.jpg" else none,
         fun _ => true, fun _ => true, fun _ _ => ChanOutcome.success,
         fun _ => false⟩
        ["http://s"]).2.2.filter
      (fun e => e = Ev.download "http://h/a.jpg" true)).length = 2 := by decide

/-- C5 corrected: the ledger is append-only, so once a URL is in
`SENT_MEDIA_URLS` every later membership check in the process sees it
(it is in the final state of this run, and of any later run started from
that state); and a URL in the ledger when a page iteration begins is
never downloaded nor re-marked during that run.  The guarantee stops at
page granularity: within one page the ledger filter runs once before
delivery, so a URL surfacing in both the image and the video list of a
single page is delivered once per list (see the counterexample). -/
theorem claim_C5_ledger (env : Env) (seeds : List String) (st : St) (u : String)
    (hf : ∀ i, env.flag i = false) (hu : u ∈ st.sent) :
    u ∈ (processSeeds env seeds st).2.1.sent ∧
    (∀ b, (u, b) ∉ downloadEvents (processSeeds env seeds st).2.2) ∧
    u ∉ markedUrls (processSeeds env seeds st).2.2 ∧
    (∀ seeds2 : List String,
      u ∈ (processSeeds env seeds2 (processSeeds env seeds st).2.1).2.1.sent) := by
  obtain ⟨-, -, h3, h4, -⟩ := processSeeds_run env hf seeds st
  refine ⟨h3 u hu, (h4 u hu).1, (h4 u hu).2, ?_⟩
  intro seeds2
  obtain ⟨-, -, g3, -, -⟩ :=
    processSeeds_run env hf seeds2 (processSeeds env seeds st).2.1
  exact g3 u (h3 u hu)

/-- Witness for C5's corrected statement: a URL already in the ledger is
still there after a run that rediscovers it, and that run never downloads
it again. -/
theorem claim_C5_ledger_witness :
    "http://h/a.jpg" ∈ (processSeeds
        ⟨fun v => if v = "http://s" then
            some ⟨[⟨some "http://h/a.jpg", none, none⟩], [], []⟩
          else none,
         fun _ => none, fun _ => true, fun _ => true,
         fun _ _ => ChanOutcome.success, fun _ => false⟩
        ["http://s"] ⟨["http://h/a.jpg"], 0, 0⟩).2.1.sent ∧
    (∀ b, ("http://h/a.jpg", b) ∉ downloadEvents (processSeeds
        ⟨fun v => if v = "http://s" then
            some ⟨[⟨some "http://h/a.jpg", none, none⟩], [], []⟩
          else none,
         fun _ => none, fun _ => true, fun _ => true,
         fun _ _ => ChanOutcome.success, fun _ => false⟩
        ["http://s"] ⟨["http://h/a.jpg"], 0, 0⟩).2.2) := by
  have h := claim_C5_ledger
    ⟨fun v => if v = "http://s" then
        some ⟨[⟨some "http://h/a.jpg", none, none⟩], [], []⟩
      else none,
     fun _ => none, fun _ => true, fun _ => true,
     fun _ _ => ChanOutcome.success, fun _ => false⟩
    ["http://s"] ⟨["http://h/a.jpg"], 0, 0⟩ "http://h/a.jpg"
    (fun _ => rfl) (by decide)
  exact ⟨h.1, h.2.1⟩

-- ========================
-- C9: gifs are extracted but never delivered
-- ========================

/-- C9 counterexample: the gif URL `http://h/a.gif` is in the page's gif
list, but the SAME URL is also resolved out of an iframe embed into the
video list; the controller delivers the video list, so this gif URL IS
downloaded, sent and added to the ledger — refuting the universally
quantified "no gif URL is ever downloaded, sent, or added". -/
theorem claim_C9_counterexample :
    (extract_media_from_page
        (fun v => if v = "http://s" then
            some ⟨[⟨some "http://h/a.gif", none, none⟩], [some "http://e/1"], []⟩
          else none)
        (fun v => if v = "http://e/1" then some "http://h/a.gif" else none)
        "http://s").1.gifs = ["http://h/a.gif"] ∧
    (process_media_scraper
        ⟨fun v => if v = "http://s" then
            some ⟨[⟨some "http://h/a.gif", none, none⟩], [some "http://e/1"], []⟩
          else none,
         fun v => if v = "http://e/1" then some "http://h/a.gif" else none,
         fun _ => true, fun _ => true, fun _ _ => ChanOutcome.success,
         fun _ => false⟩
        ["http://s"]).2.2
      = [Ev.fetchPage "http://s",
         Ev.download "http://h/a.gif" true, Ev.mark "http://h/a.gif",
         Ev.sendVideo "http://h/a.gif" true] := by decide

/-- C9 corrected: the delivery phase of a page is invariant under the gif
list (replacing it changes nothing — the controller passes only the image
and video lists to delivery), and every download, ledger add,
grouped-photo member and video send comes from the page's image or video
list; hence a URL that appears ONLY in the gif list is never downloaded,
never sent and never added to the ledger.  The exception the
counterexample exhibits is a gif URL that also enters the video list via
embed resolution — it is delivered, as a video. -/
theorem claim_C9_gifs_not_delivered (env : Env) (m : PageMedia) (st : St)
    (gl : List String) (u : String) (hf : ∀ i, env.flag i = false)
    (hg : u ∈ m.gifs) (hni : u ∉ m.images) (hnv : u ∉ m.videos) :
    deliverMedia env { m with gifs := gl } st = deliverMedia env m st ∧
    (∀ b, (u, b) ∉ downloadEvents (deliverMedia env m st).2.1) ∧
    u ∉ markedUrls (deliverMedia env m st).2.1 ∧
    (∀ g ∈ photoGroups (deliverMedia env m st).2.1, u ∉ g) ∧
    (∀ b, (u, b) ∉ videoSends (deliverMedia env m st).2.1) := by
  obtain ⟨-, d2, d3, -, -, d6, d7⟩ := deliverMedia_facts env hf m st
  refine ⟨rfl, ?_, ?_, ?_, ?_⟩
  · intro b hb
    rcases (d2 u b hb).1 with h | h
    · exact hni h
    · exact hnv h
  · intro hm
    rcases (d3 u hm).1 with h | h
    · exact hni h
    · exact hnv h
  · intro g hgr hug
    exact hni ((d6 g hgr u hug).1)
  · intro b hb
    exact hnv ((d7 (u, b) hb).1)

/-- Witness for C9's corrected statement: a page with one image, no
videos and one gif — the gif URL is neither downloaded nor marked by the
delivery phase. -/
theorem claim_C9_gifs_not_delivered_witness :
    (∀ b, ("http://h/g.gif", b) ∉ downloadEvents (deliverMedia
        ⟨fun _ => none, fun _ => none, fun _ => true, fun _ => true,
         fun _ _ => ChanOutcome.success, fun _ => false⟩
        ⟨["http://h/i.jpg"], [], ["http://h/g.gif"]⟩ ⟨[], 0, 0⟩).2.1) ∧
    "http://h/g.gif" ∉ markedUrls (deliverMedia
        ⟨fun _ => none, fun _ => none, fun _ => true, fun _ => true,
         fun _ _ => ChanOutcome.success, fun _ => false⟩
        ⟨["http://h/i.jpg"], [], ["http://h/g.gif"]⟩ ⟨[], 0, 0⟩).2.1 := by
  have h := claim_C9_gifs_not_delivered
    ⟨fun _ => none, fun _ => none, fun _ => true, fun _ => true,
     fun _ _ => ChanOutcome.success, fun _ => false⟩
    ⟨["http://h/i.jpg"], [], ["http://h/g.gif"]⟩ ⟨[], 0, 0⟩ []
    "http://h/g.gif" (fun _ => rfl) (by decide) (by decide) (by decide)
  exact ⟨h.2.1, h.2.2.1⟩

-- ========================
-- C10: pagination located but discarded
-- ========================

/-- C10: the extractor locates the next-page URL — the first anchor
carrying the `pageNav-jump--next` class, else the first `rel=next`
anchor, else the first anchor whose text is exactly `Next` up to case and
surrounding whitespace, resolved absolute against the page URL — and
returns it as the last component of its result; but the controller
discards that component: the pages fetched by a cancel-free run are
exactly the normalized seed URLs, whatever next-page anchors every page
carries, so pagination is never followed. -/
theorem claim_C10_pagination_discarded (env : Env) (seeds : List String)
    (url hrefVal : String) (pg : Page) (a : Anchor)
    (hf : ∀ i, env.flag i = false) (hfp : env.fetchPage url = some pg) :
    fetchedPages (process_media_scraper env seeds).2.2 = seeds.map normalizeUrl ∧
    (extract_media_from_page env.fetchPage env.resolveEmbed url).2.2
      = nextPageOf url pg.anchors ∧
    (findNextAnchor pg.anchors = some a →
      hasNextClass a = true ∨
      (hasNextRel a = true ∧ ∀ x ∈ pg.anchors, hasNextClass x = false) ∨
      (hasNextText a = true ∧ (∀ x ∈ pg.anchors, hasNextClass x = false) ∧
        ∀ x ∈ pg.anchors, hasNextRel x = false)) ∧
    (findNextAnchor pg.anchors = some a → a.href = some hrefVal → hrefVal ≠ "" →
      nextPageOf url pg.anchors = some (urljoin url hrefVal)) := by
  refine ⟨(processSeeds_run env hf seeds ⟨[], 0, 0⟩).2.1, ?_, ?_, ?_⟩
  · rw [extract_eq_of_fetch env.fetchPage env.resolveEmbed url pg hfp]
  · intro hfind
    unfold findNextAnchor at hfind
    cases hc : pg.anchors.find? hasNextClass with
    | some b =>
      rw [hc] at hfind
      simp only [Option.some.injEq] at hfind
      subst hfind
      exact Or.inl (List.find?_some hc)
    | none =>
      rw [hc] at hfind
      have hcall : ∀ x ∈ pg.anchors, hasNextClass x = false := by
        intro x hx
        have hnx := List.find?_eq_none.mp hc x hx
        simpa using hnx
      cases hr : pg.anchors.find? hasNextRel with
      | some b =>
        rw [hr] at hfind
        simp only [Option.some.injEq] at hfind
        subst hfind
        exact Or.inr (Or.inl ⟨List.find?_some hr, hcall⟩)
      | none =>
        rw [hr] at hfind
        have hrall : ∀ x ∈ pg.anchors, hasNextRel x = false := by
          intro x hx
          have hnx := List.find?_eq_none.mp hr x hx
          simpa using hnx
        exact Or.inr (Or.inr ⟨List.find?_some hfind, hcall, hrall⟩)
  · intro hfind hhref hne
    simp [nextPageOf, hfind, hhref, hne]

/-- Witness for C10: a seed page carrying a `rel=next` anchor with href
`/p2`: the extractor's next-page value is `http://s/p2`, yet the only
page the run fetches is the seed itself. -/
theorem claim_C10_pagination_discarded_witness :
    fetchedPages (process_media_scraper
        ⟨fun v => if v = "http://s" then
            some ⟨[], [], [⟨[], ["next"], none, some "/p2"⟩]⟩
          else none,
         fun _ => none, fun _ => true, fun _ => true,
         fun _ _ => ChanOutcome.success, fun _ => false⟩
        ["http://s"]).2.2 = ["http://s"].map normalizeUrl ∧
    nextPageOf "http://s" [⟨[], ["next"], none, some "/p2"⟩]
      = some (urljoin "http://s" "/p2") := by
  have h := claim_C10_pagination_discarded
    ⟨fun v => if v = "http://s" then
        some ⟨[], [], [⟨[], ["next"], none, some "/p2"⟩]⟩
      else none,
     fun _ => none, fun _ => true, fun _ => true,
     fun _ _ => ChanOutcome.success, fun _ => false⟩
    ["http://s"] "http://s" "/p2"
    ⟨[], [], [⟨[], ["next"], none, some "/p2"⟩]⟩
    ⟨[], ["next"], none, some "/p2"⟩
    (fun _ => rfl) (by decide)
  exact ⟨h.1, h.2.2.2 (by decide) (by decide) (by decide)⟩

-- ========================
-- C4: cancellation
-- ========================

theorem sendImagesAux_cancel (env : Env) (c : Nat)
    (hfl : ∀ i, env.flag i = decide (c ≤ i)) (urls : List String) :
    ∀ (group : List String) (st : St), st.chk ≤ c → c < st.chk + urls.length →
    (sendImagesAux env group urls st).2.2 = true ∧
    (∀ u b, (u, b) ∈ downloadEvents (sendImagesAux env group urls st).2.1 →
      u ∈ urls.take (c - st.chk)) ∧
    (∀ v ∈ markedUrls (sendImagesAux env group urls st).2.1,
      v ∈ urls.take (c - st.chk)) ∧
    (∀ g ∈ photoGroups (sendImagesAux env group urls st).2.1,
      g.length = 10 ∧ ∀ v ∈ g, v ∈ group ++ urls.take (c - st.chk)) ∧
    videoSends (sendImagesAux env group urls st).2.1 = [] := by
  induction urls with
  | nil =>
    intro group st hle hlt
    simp only [List.length_nil, Nat.add_zero] at hlt
    omega
  | cons u rest ih =>
    intro group st hle hlt
    by_cases hc : st.chk = c
    · have hflag : env.flag st.chk = true := by
        rw [hfl]
        simp [hc]
      have key : sendImagesAux env group (u :: rest) st
          = ({ st with chk := st.chk + 1 }, [], true) := by
        simp [sendImagesAux, hflag]
      rw [key]
      simp
    · have hlt2 : st.chk < c := Nat.lt_of_le_of_ne hle hc
      have hflag : env.flag st.chk = false := by
        rw [hfl]
        simp only [decide_eq_false_iff_not]
        omega
      have htake : (u :: rest).take (c - st.chk)
          = u :: rest.take (c - (st.chk + 1)) := by
        have hn : c - st.chk = (c - (st.chk + 1)) + 1 := by omega
        rw [hn]
        rfl
      have hle' : st.chk + 1 ≤ c := hlt2
      have hlt' : c < (st.chk + 1) + rest.length := by
        simp only [List.length_cons] at hlt
        omega
      by_cases hdl : env.dl u
      · by_cases hw : (isWebpUrl u && !env.conv u) = true
        · have key : sendImagesAux env group (u :: rest) st =
              ((sendImagesAux env group rest
                  { st with chk := st.chk + 1, sent := insertIfNew st.sent u }).1,
               [Ev.download u true, Ev.mark u] ++
                 (sendImagesAux env group rest
                   { st with chk := st.chk + 1, sent := insertIfNew st.sent u }).2.1,
               (sendImagesAux env group rest
                 { st with chk := st.chk + 1, sent := insertIfNew st.sent u }).2.2) := by
            simp [sendImagesAux, hflag, hdl, hw]
          obtain ⟨ih1, ih2, ih3, ih4, ih5⟩ :=
            ih group { st with chk := st.chk + 1, sent := insertIfNew st.sent u }
              hle' hlt'
          rw [key, htake]
          refine ⟨ih1, ?_, ?_, ?_, by simpa using ih5⟩
          · intro v b hv
            simp only [List.cons_append, List.nil_append, downloadEvents_download,
              downloadEvents_mark, List.mem_cons] at hv
            rcases hv with hv | hv
            · injection hv with hv1 hv2
              subst hv1
              exact List.mem_cons_self _ _
            · exact List.mem_cons_of_mem u (ih2 v b hv)
          · intro v hv
            simp only [List.cons_append, List.nil_append, markedUrls_download,
              markedUrls_mark, List.mem_cons] at hv
            rcases hv with hv | hv
            · subst hv
              exact List.mem_cons_self _ _
            · exact List.mem_cons_of_mem u (ih3 v hv)
          · intro g hg
            simp only [List.cons_append, List.nil_append, photoGroups_download,
              photoGroups_mark] at hg
            obtain ⟨hg10, hgmem⟩ := ih4 g hg
            refine ⟨hg10, ?_⟩
            intro v hv
            rcases List.mem_append.mp (hgmem v hv) with h | h
            · exact List.mem_append_left _ h
            · exact List.mem_append_right _ (List.mem_cons_of_mem u h)
        · by_cases hlen : (group ++ [u]).length = 10
          · have key : sendImagesAux env group (u :: rest) st =
                ((sendImagesAux env [] rest
                    { st with chk := st.chk + 1, sent := insertIfNew st.sent u,
                              calls := st.calls + 1 }).1,
                 [Ev.download u true, Ev.mark u,
                  Ev.sendPhotos (group ++ [u]) (sendWithRetry (env.chan st.calls)).1] ++
                   (sendImagesAux env [] rest
                     { st with chk := st.chk + 1, sent := insertIfNew st.sent u,
                               calls := st.calls + 1 }).2.1,
                 (sendImagesAux env [] rest
                   { st with chk := st.chk + 1, sent := insertIfNew st.sent u,
                             calls := st.calls + 1 }).2.2) := by
              simp [sendImagesAux, hflag, hdl, hw, hlen]
            obtain ⟨ih1, ih2, ih3, ih4, ih5⟩ :=
              ih [] { st with chk := st.chk + 1, sent := insertIfNew st.sent u,
                              calls := st.calls + 1 } hle' hlt'
            rw [key, htake]
            refine ⟨ih1, ?_, ?_, ?_, by simpa using ih5⟩
            · intro v b hv
              simp only [List.cons_append, List.nil_append, downloadEvents_download,
                downloadEvents_mark, downloadEvents_sendPhotos, List.mem_cons] at hv
              rcases hv with hv | hv
              · injection hv with hv1 hv2
                subst hv1
                exact List.mem_cons_self _ _
              · exact List.mem_cons_of_mem u (ih2 v b hv)
            · intro v hv
              simp only [List.cons_append, List.nil_append, markedUrls_download,
                markedUrls_mark, markedUrls_sendPhotos, List.mem_cons] at hv
              rcases hv with hv | hv
              · subst hv
                exact List.mem_cons_self _ _
              · exact List.mem_cons_of_mem u (ih3 v hv)
            · intro g hg
              simp only [List.cons_append, List.nil_append, photoGroups_download,
                photoGroups_mark, photoGroups_sendPhotos, List.mem_cons] at hg
              rcases hg with hg | hg
              · subst hg
                refine ⟨hlen, ?_⟩
                intro v hv
                rcases List.mem_append.mp hv with h | h
                · exact List.mem_append_left _ h
                · simp only [List.mem_singleton] at h
                  subst h
                  exact List.mem_append_right _ (List.mem_cons_self _ _)
              · obtain ⟨hg10, hgmem⟩ := ih4 g hg
                refine ⟨hg10, ?_⟩
                intro v hv
                rcases List.mem_append.mp (hgmem v hv) with h | h
                · exact absurd h (List.not_mem_nil v)
                · exact List.mem_append_right _ (List.mem_cons_of_mem u h)
          · have key : sendImagesAux env group (u :: rest) st =
                ((sendImagesAux env (group ++ [u]) rest
                    { st with chk := st.chk + 1, sent := insertIfNew st.sent u }).1,
                 [Ev.download u true, Ev.mark u] ++
                   (sendImagesAux env (group ++ [u]) rest
                     { st with chk := st.chk + 1, sent := insertIfNew st.sent u }).2.1,
                 (sendImagesAux env (group ++ [u]) rest
                   { st with chk := st.chk + 1, sent := insertIfNew st.sent u }).2.2) := by
              have hlen9 : ¬(group.length = 9) := by simpa using hlen
              simp [sendImagesAux, hflag, hdl, hw, hlen9]
            obtain ⟨ih1, ih2, ih3, ih4, ih5⟩ :=
              ih (group ++ [u])
                { st with chk := st.chk + 1, sent := insertIfNew st.sent u } hle' hlt'
            rw [key, htake]
            refine ⟨ih1, ?_, ?_, ?_, by simpa using ih5⟩
            · intro v b hv
              simp only [List.cons_append, List.nil_append, downloadEvents_download,
                downloadEvents_mark, List.mem_cons] at hv
              rcases hv with hv | hv
              · injection hv with hv1 hv2
                subst hv1
                exact List.mem_cons_self _ _
              · exact List.mem_cons_of_mem u (ih2 v b hv)
            · intro v hv
              simp only [List.cons_append, List.nil_append, markedUrls_download,
                markedUrls_mark, List.mem_cons] at hv
              rcases hv with hv | hv
              · subst hv
                exact List.mem_cons_self _ _
              · exact List.mem_cons_of_mem u (ih3 v hv)
            · intro g hg
              simp only [List.cons_append, List.nil_append, photoGroups_download,
                photoGroups_mark] at hg
              obtain ⟨hg10, hgmem⟩ := ih4 g hg
              refine ⟨hg10, ?_⟩
              intro v hv
              rcases List.mem_append.mp (hgmem v hv) with h | h
              · rcases List.mem_append.mp h with h2 | h2
                · exact List.mem_append_left _ h2
                · simp only [List.mem_singleton] at h2
                  subst h2
                  exact List.mem_append_right _ (List.mem_cons_self _ _)
              · exact List.mem_append_right _ (List.mem_cons_of_mem u h)
      · have key : sendImagesAux env group (u :: rest) st =
            ((sendImagesAux env group rest { st with chk := st.chk + 1 }).1,
             [Ev.download u false] ++
               (sendImagesAux env group rest { st with chk := st.chk + 1 }).2.1,
             (sendImagesAux env group rest { st with chk := st.chk + 1 }).2.2) := by
          simp [sendImagesAux, hflag, hdl]
        obtain ⟨ih1, ih2, ih3, ih4, ih5⟩ :=
          ih group { st with chk := st.chk + 1 } hle' hlt'
        rw [key, htake]
        refine ⟨ih1, ?_, ?_, ?_, by simpa using ih5⟩
        · intro v b hv
          simp only [List.cons_append, List.nil_append, downloadEvents_download,
            List.mem_cons] at hv
          rcases hv with hv | hv
          · injection hv with hv1 hv2
            subst hv1
            exact List.mem_cons_self _ _
          · exact List.mem_cons_of_mem u (ih2 v b hv)
        · intro v hv
          simp only [List.cons_append, List.nil_append, markedUrls_download] at hv
          exact List.mem_cons_of_mem u (ih3 v hv)
        · intro g hg
          simp only [List.cons_append, List.nil_append, photoGroups_download] at hg
          obtain ⟨hg10, hgmem⟩ := ih4 g hg
          refine ⟨hg10, ?_⟩
          intro v hv
          rcases List.mem_append.mp (hgmem v hv) with h | h
          · exact List.mem_append_left _ h
          · exact List.mem_append_right _ (List.mem_cons_of_mem u h)

/-- C4 counterexample: a cancel request observed at the seed-URL check
(the flag is set before the first check of a two-seed job) makes the loop
BREAK into the completion path: nothing is fetched, downloaded or
delivered — as the claim says — but the job reports the COMPLETED
outcome (`✅ Scraping complete!`), not a cancelled one, contrary to the
claim. -/
theorem claim_C4_counterexample :
    (process_media_scraper
        ⟨fun v => if v = "http://s1" then
            some ⟨[⟨some "http://h/a.jpg", none, none⟩], [], []⟩
          else none,
         fun _ => none, fun _ => true, fun _ => true,
         fun _ _ => ChanOutcome.success, fun _ => true⟩
        ["http://s1", "http://s2"]).1 = Outcome.completed ∧
    (process_media_scraper
        ⟨fun v => if v = "http://s1" then
            some ⟨[⟨some "http://h/a.jpg", none, none⟩], [], []⟩
          else none,
         fun _ => none, fun _ => true, fun _ => true,
         fun _ _ => ChanOutcome.success, fun _ => true⟩
        ["http://s1", "http://s2"]).2.2 = [] := by decide

/-- C4 corrected: where the cancel is observed decides the reported
outcome.  (a) A flag already set at the seed-URL check makes the loop
break into the completion path: the job reports COMPLETED and its trace
is empty — remaining items are neither downloaded nor delivered, but the
outcome is not cancelled.  (b) A flag first observed at the check before
image item k of a single-seed job raises `CancelledError` inside the
delivery: the job reports CANCELLED, items k..end of the image list are
neither downloaded nor marked, every grouped-photo send issued before the
abort is a full batch of 10 — the partially accumulated batch is never
sent — and no video is sent. -/
theorem claim_C4_cancellation (env1 env2 : Env) (seeds : List String) (s : String)
    (k : Nat) (h1 : ∀ i, env1.flag i = true)
    (h2 : ∀ i, env2.flag i = decide (k + 1 ≤ i))
    (hk : k < (extract_media_from_page env2.fetchPage env2.resolveEmbed
        (normalizeUrl s)).1.images.length) :
    (processSeeds env1 seeds ⟨[], 0, 0⟩).1 = Outcome.completed ∧
    (processSeeds env1 seeds ⟨[], 0, 0⟩).2.2 = [] ∧
    (process_media_scraper env2 [s]).1 = Outcome.cancelled ∧
    (∀ u ∈ (extract_media_from_page env2.fetchPage env2.resolveEmbed
        (normalizeUrl s)).1.images.drop k,
      (∀ b, (u, b) ∉ downloadEvents (process_media_scraper env2 [s]).2.2) ∧
      u ∉ markedUrls (process_media_scraper env2 [s]).2.2) ∧
    (∀ g ∈ photoGroups (process_media_scraper env2 [s]).2.2, g.length = 10) ∧
    videoSends (process_media_scraper env2 [s]).2.2 = [] := by
  have partA : (processSeeds env1 seeds ⟨[], 0, 0⟩).1 = Outcome.completed ∧
      (processSeeds env1 seeds ⟨[], 0, 0⟩).2.2 = [] := by
    cases seeds with
    | nil => exact ⟨rfl, rfl⟩
    | cons a rest =>
      constructor <;> simp [processSeeds, h1 0]
  -- part (b): the cancel is observed inside the image delivery
  have hf0 : env2.flag 0 = false := by
    rw [h2]
    simp
  have hm := extract_media_from_page env2.fetchPage env2.resolveEmbed (normalizeUrl s)
  have hfil : (extract_media_from_page env2.fetchPage env2.resolveEmbed
      (normalizeUrl s)).1.images.filter
        (fun u => !(([] : List String).contains u))
      = (extract_media_from_page env2.fetchPage env2.resolveEmbed
          (normalizeUrl s)).1.images := by
    simp
  have hne : (extract_media_from_page env2.fetchPage env2.resolveEmbed
      (normalizeUrl s)).1.images ≠ [] := by
    intro hnil
    rw [hnil] at hk
    simp at hk
  have hie : (extract_media_from_page env2.fetchPage env2.resolveEmbed
      (normalizeUrl s)).1.images.isEmpty = false := by
    cases hb : (extract_media_from_page env2.fetchPage env2.resolveEmbed
        (normalizeUrl s)).1.images.isEmpty with
    | false => rfl
    | true => exact absurd (List.isEmpty_iff.mp hb) hne
  obtain ⟨cc1, cc2, cc3, cc4, cc5⟩ :=
    sendImagesAux_cancel env2 (k + 1) h2
      (extract_media_from_page env2.fetchPage env2.resolveEmbed
        (normalizeUrl s)).1.images [] ⟨[], 1, 0⟩
      (by dsimp only; omega) (by dsimp only; omega)
  rcases hsd : sendImagesAux env2 []
      (extract_media_from_page env2.fetchPage env2.resolveEmbed
        (normalizeUrl s)).1.images ⟨[], 1, 0⟩ with ⟨stI, evsI, cI⟩
  rw [hsd] at cc1 cc2 cc3 cc4 cc5
  dsimp only at cc1 cc2 cc3 cc4 cc5
  subst cc1
  have hdel : deliverMedia env2
      (extract_media_from_page env2.fetchPage env2.resolveEmbed
        (normalizeUrl s)).1 ⟨[], 1, 0⟩ = (stI, evsI, true) := by
    simp only [deliverMedia, hfil, hie, Bool.false_eq_true, if_false, send_images, hsd]
  have key : process_media_scraper env2 [s]
      = (Outcome.cancelled, stI, Ev.fetchPage (normalizeUrl s) :: evsI) := by
    simp only [process_media_scraper, processSeeds, hf0, Bool.false_eq_true, if_false,
      processPage, hdel]
  rw [key]
  dsimp only
  have hnodup := extract_images_nodup env2.fetchPage env2.resolveEmbed (normalizeUrl s)
  have hdisj := List.disjoint_take_drop hnodup (Nat.le_refl k)
  have htk : k + 1 - 1 = k := by omega
  rw [htk] at cc2 cc3
  refine ⟨partA.1, partA.2, rfl, ?_, ?_, by simpa using cc5⟩
  · intro u hu
    refine ⟨?_, ?_⟩
    · intro b hb
      rw [downloadEvents_fetch] at hb
      exact hdisj (cc2 u b hb) hu
    · intro hmk
      rw [markedUrls_fetch] at hmk
      exact hdisj (cc3 u hmk) hu
  · intro g hg
    rw [photoGroups_fetch] at hg
    exact (cc4 g hg).1

/-- Witness for C4's corrected statement: a seed page with two images and
the flag first observed at the check before image item 1 — the job
reports cancelled and the second image is untouched; and with the flag
always set, a two-seed job reports completed with an empty trace. -/
theorem claim_C4_cancellation_witness :
    (process_media_scraper
        ⟨fun v => if v = "https://s" then
            some ⟨[⟨some "http://h/a.jpg", none, none⟩,
                   ⟨some "http://h/b.jpg", none, none⟩], [], []⟩
          else none,
         fun _ => none, fun _ => true, fun _ => true,
         fun _ _ => ChanOutcome.success, fun i => decide (2 ≤ i)⟩
        ["s"]).1 = Outcome.cancelled ∧
    (∀ u ∈ (extract_media_from_page
        (fun v => if v = "https://s" then
            some ⟨[⟨some "http://h/a.jpg", none, none⟩,
                   ⟨some "http://h/b.jpg", none, none⟩], [], []⟩
          else none)
        (fun _ => none) (normalizeUrl "s")).1.images.drop 1,
      (∀ b, (u, b) ∉ downloadEvents (process_media_scraper
          ⟨fun v => if v = "https://s" then
              some ⟨[⟨some "http://h/a.jpg", none, none⟩,
                     ⟨some "http://h/b.jpg", none, none⟩], [], []⟩
            else none,
           fun _ => none, fun _ => true, fun _ => true,
           fun _ _ => ChanOutcome.success, fun i => decide (2 ≤ i)⟩
          ["s"]).2.2) ∧
      u ∉ markedUrls (process_media_scraper
          ⟨fun v => if v = "https://s" then
              some ⟨[⟨some "http://h/a.jpg", none, none⟩,
                     ⟨some "http://h/b.jpg", none, none⟩], [], []⟩
            else none,
           fun _ => none, fun _ => true, fun _ => true,
           fun _ _ => ChanOutcome.success, fun i => decide (2 ≤ i)⟩
          ["s"]).2.2) ∧
    (processSeeds
        ⟨fun _ => none, fun _ => none, fun _ => true, fun _ => true,
         fun _ _ => ChanOutcome.success, fun _ => true⟩
        ["http://a", "http://b"] ⟨[], 0, 0⟩).1 = Outcome.completed := by
  have h := claim_C4_cancellation
    ⟨fun _ => none, fun _ => none, fun _ => true, fun _ => true,
     fun _ _ => ChanOutcome.success, fun _ => true⟩
    ⟨fun v => if v = "https://s" then
        some ⟨[⟨some "http://h/a.jpg", none, none⟩,
               ⟨some "http://h/b.jpg", none, none⟩], [], []⟩
      else none,
     fun _ => none, fun _ => true, fun _ => true,
     fun _ _ => ChanOutcome.success, fun i => decide (2 ≤ i)⟩
    ["http://a", "http://b"] "s" 1
    (fun _ => rfl) (fun _ => rfl) (by decide)
  exact ⟨h.2.2.1, h.2.2.2.1, h.1⟩

end MediaBot
